import Mathlib

/-!
# PointCloudViewer: pose interpolation and the point conversion loop

A shallow embedding of `src/ui/FileConvertThread.cpp` (class `FileConvertPrivate`).

Conventions of the embedding.

* `double` and `float` values are elements of an ordered field `K`.  Where the program truncates
  the result of double arithmetic to an integer (`readPose`, the progress value, the time values
  of `ConvertToLas`), each arithmetic operation is followed by the rounding `Rounding.fl`; at
  `K = ℚ` this is `roundDouble`, rounding to the nearest `double`.  Elsewhere the arithmetic is
  exact.  All definitions are executable at `K = ℚ`; the trigonometric statements are read at
  `K = ℝ`.
* `uint64_t` values are natural numbers, with `% 2 ^ 64` written out where the C++ arithmetic wraps.
* `std::deque<POSSMeas::Ptr> poseQue` is a list whose head is `front()`.
* The routines of the numeric libraries that are not polynomial (`cos`, `sin` of `<cmath>`,
  `Eigen::Quaternion::slerp`) are parameters of the definitions that call them.
-/

namespace PointCloudViewer

section Model

variable {K : Type}

/-! ## Machine integers -/

/-- Number of values of a `uint64_t`. -/
def U64 : Nat := 2 ^ 64

/-- Number of values of an `unsigned int`. -/
def U32 : Nat := 2 ^ 32

/-- Subtraction of two `uint64_t` values, wrapping around. -/
def u64sub (a b : Nat) : Nat := (a + U64 - b % U64) % U64

/-- Addition of two `uint64_t` values, wrapping around. -/
def u64add (a b : Nat) : Nat := (a + b) % U64

/-- The cast `(uint64_t) v` of a `double`: truncation.  (For a value outside the range of
`uint64_t` the C++ cast is undefined; the model wraps it.) -/
def toU64 [LinearOrderedField K] [FloorRing K] (v : K) : Nat := ⌊v⌋₊ % U64

/-! ## Double rounding -/

/-- Rounding of double arithmetic on `K`: `fl x` is the `double` that an operation yields whose
exact result is `x`. -/
class Rounding (K : Type) where
  /-- The rounded result. -/
  fl : K → K

/-- Rounding to the nearest multiple of `2 ^ (-k)`, a tie going to the even multiple. -/
def roundAt (k : Int) (x : ℚ) : ℚ :=
  if x * 2 ^ k - ⌊x * 2 ^ k⌋ < 1 / 2 then ⌊x * 2 ^ k⌋ / 2 ^ k
  else if 1 / 2 < x * 2 ^ k - ⌊x * 2 ^ k⌋ then (⌊x * 2 ^ k⌋ + 1) / 2 ^ k
  else if ⌊x * 2 ^ k⌋ % 2 = 0 then ⌊x * 2 ^ k⌋ / 2 ^ k
  else (⌊x * 2 ^ k⌋ + 1) / 2 ^ k

/-- Rounding to the nearest `double` (IEEE 754 binary64, round to nearest, ties to even): a value
in the binade `[2 ^ e, 2 ^ (e + 1))` is rounded to a multiple of `2 ^ (e - 52)`.  Overflow and
subnormal numbers, far from the magnitudes of this program, are not modelled. -/
def roundDouble (x : ℚ) : ℚ :=
  if x = 0 then 0 else roundAt (52 - Int.log 2 |x|) x

instance : Rounding ℚ := ⟨roundDouble⟩

/-! ## Geometry (Eigen) -/

/-- Coefficients of an `Eigen::Quaterniond`. -/
structure Quat (K : Type) where
  w : K
  x : K
  y : K
  z : K

/-- The identity quaternion. -/
def Quat.one [Field K] : Quat K := ⟨1, 0, 0, 0⟩

/-- Quaternion product `a * b` (Hamilton product, as `Eigen::Quaternion::operator*`). -/
def Quat.mul [Field K] (a b : Quat K) : Quat K :=
  ⟨a.w * b.w - a.x * b.x - a.y * b.y - a.z * b.z,
   a.w * b.x + a.x * b.w + a.y * b.z - a.z * b.y,
   a.w * b.y + a.y * b.w + a.z * b.x - a.x * b.z,
   a.w * b.z + a.z * b.w + a.x * b.y - a.y * b.x⟩

/-- Squared norm of a quaternion. -/
def Quat.normSq [Field K] (a : Quat K) : K := a.w * a.w + a.x * a.x + a.y * a.y + a.z * a.z

/-- The matrix of `Eigen::Quaternion::toRotationMatrix`. -/
def Quat.toRotationMatrix [Field K] (q : Quat K) : Matrix (Fin 3) (Fin 3) K :=
  !![1 - (2 * q.y * q.y + 2 * q.z * q.z), 2 * q.x * q.y - 2 * q.z * q.w,
       2 * q.x * q.z + 2 * q.y * q.w;
     2 * q.x * q.y + 2 * q.z * q.w, 1 - (2 * q.x * q.x + 2 * q.z * q.z),
       2 * q.y * q.z - 2 * q.x * q.w;
     2 * q.x * q.z - 2 * q.y * q.w, 2 * q.y * q.z + 2 * q.x * q.w,
       1 - (2 * q.x * q.x + 2 * q.y * q.y)]

/-- The three coordinate axes `Eigen::Vector3d::UnitX()`, `UnitY()`, `UnitZ()`. -/
inductive Axis where
  | X
  | Y
  | Z
  deriving DecidableEq, Repr

/-- The quaternion of `Eigen::AngleAxisd(angle, axis)` for a coordinate axis:
`w = cos (angle / 2)`, vector part `sin (angle / 2) * axis`. -/
def angleAxis [Field K] (cos sin : K → K) (angle : K) : Axis → Quat K
  | Axis.X => ⟨cos (angle / 2), sin (angle / 2), 0, 0⟩
  | Axis.Y => ⟨cos (angle / 2), 0, sin (angle / 2), 0⟩
  | Axis.Z => ⟨cos (angle / 2), 0, 0, sin (angle / 2)⟩

/-- The macro `DEG2RAD(x) ((x)*0.017453293)`. -/
def DEG2RAD [Field K] (x : K) : K := x * (17453293 / 1000000000)

/-- An `Eigen::Isometry3d`: the linear part and the translation of the affine map. -/
structure Isometry3 (K : Type) where
  linear : Matrix (Fin 3) (Fin 3) K
  translation : Fin 3 → K

/-- Product of two isometries (`Eigen::Transform::operator*`). -/
def Isometry3.mul [Field K] (a b : Isometry3 K) : Isometry3 K :=
  ⟨a.linear * b.linear, a.linear.mulVec b.translation + a.translation⟩

/-- An isometry applied to a point (`Transform * Vector3d`). -/
def Isometry3.apply [Field K] (a : Isometry3 K) (v : Fin 3 → K) : Fin 3 → K :=
  a.linear.mulVec v + a.translation

/-! ## Pose samples and interpolation -/

/-- A pose sample `POSSMeas`: the members the program uses. -/
structure POSSMeas (K : Type) where
  timestamp : Nat
  p : Fin 3 → K
  q : Quat K

/-- The object returned by `poseInterpolation`: its `p` and `q` are assigned; its `timestamp`
member is never assigned and never read. -/
structure Pose (K : Type) where
  p : Fin 3 → K
  q : Quat K

/-- The `while` loop of `poseInterpolation`: while the queue holds more than one sample and the
second one is not later than the query, the front sample is popped. -/
def advance (timestamp : Nat) : List (POSSMeas K) → List (POSSMeas K)
  | a :: b :: rest =>
    if b.timestamp > timestamp then a :: b :: rest else advance timestamp (b :: rest)
  | que => que

/-- The part of `poseInterpolation` after the `while` loop, on the queue the loop left. -/
def interpolate [LinearOrderedField K] (slerp : Quat K → K → Quat K → Quat K)
    (timestamp : Nat) :
    List (POSSMeas K) → Option (Pose K)
  | a :: b :: _ =>
    if a.timestamp ≤ timestamp then
      let time_duration : K := ((u64sub b.timestamp a.timestamp : Nat) : K) * (1 / 1000000000)
      if time_duration < 5 / 100 then
        let t : K :=
          ((u64sub timestamp a.timestamp : Nat) : K) * (1 / 1000000000) / time_duration
        some ⟨a.p + t • (b.p - a.p), slerp a.q t b.q⟩
      else none
    else none
  | _ => none

/-- The method `poseInterpolation(timestamp)`: the returned pose (`none` for `nullptr`) and the
queue it leaves. -/
def poseInterpolation [LinearOrderedField K] (slerp : Quat K → K → Quat K → Quat K)
    (timestamp : Nat) (poseQue : List (POSSMeas K)) : Option (Pose K) × List (POSSMeas K) :=
  (interpolate slerp timestamp (advance timestamp poseQue), advance timestamp poseQue)

/-- The method `transformPoint(point, pose)` with the member `lidarImuTrans`. -/
def transformPoint [Field K] (lidarImuTrans : Isometry3 K) (point : Fin 3 → K)
    (pose : Pose K) : Fin 3 → K :=
  let imuWorldTrans : Isometry3 K := ⟨pose.q.toRotationMatrix, pose.p⟩
  (imuWorldTrans.mul lidarImuTrans).apply point

/-! ## The point loop of `writeLasFromPointCloud` -/

/-- A record of the input LAS reader, as its getters return it: `get_x()`, `get_y()`, `get_z()`
(`F64`), `get_intensity()` (`U16`), `get_point_source_ID()` (`U16`), `get_gps_time()` (`F64`). -/
structure LasRecord (K : Type) where
  x : K
  y : K
  z : K
  intensity : Nat
  point_source_ID : Nat
  gps_time : K

/-- A point handed to `laswriter->write_point`: the arguments of the setters `set_x`, `set_y`,
`set_z`, `set_intensity`, `set_point_source_ID`, `set_gps_time` called before it. -/
structure LasPoint (K : Type) where
  x : K
  y : K
  z : K
  intensity : Nat
  point_source_ID : Nat
  gps_time : K

/-- The arguments of `writeLasFromPointCloud` that the loop reads, the member `lidarImuTrans` and
the header field `number_of_point_records` of the input. -/
structure LoopConfig (K : Type) where
  time_min : Nat
  time_max : Nat
  min_distance : K
  lidar_time_offset : Nat
  id_range : List Int
  lidarImuTrans : Isometry3 K
  points_num : Nat

/-- The variables the loop updates: the member `poseQue`, the locals `index` and `count[3]`, the
points written so far (oldest first) and the values passed to `callback` so far (oldest first).
The local `time` only feeds a diagnostic message and is left out. -/
structure LoopState (K : Type) where
  poseQue : List (POSSMeas K)
  index : Nat
  count0 : Nat
  count1 : Nat
  count2 : Nat
  written : List (LasPoint K)
  progress : List Int

/-- The state at loop entry: `index = 0`, `count = {0, 0, 0}`, nothing written or reported. -/
def LoopState.init (poseQue : List (POSSMeas K)) : LoopState K :=
  ⟨poseQue, 0, 0, 0, 0, [], []⟩

/-- How one iteration of the `while (lasreader->read_point())` loop ends: it goes on to the next
record (`continue` or the end of the body) or leaves the loop (`break`). -/
inductive Flow (σ : Type) where
  | next (s : σ)
  | stop (s : σ)

/-- The state an iteration leaves. -/
def Flow.state {σ : Type} : Flow σ → σ
  | Flow.next s => s
  | Flow.stop s => s

/-- The first test of the loop body: `fabs(x) + fabs(y) + fabs(z) < min_distance`. -/
def tooClose [LinearOrderedField K] (cfg : LoopConfig K) (r : LasRecord K) : Prop :=
  |r.x| + |r.y| + |r.z| < cfg.min_distance

instance [LinearOrderedField K] (cfg : LoopConfig K) (r : LasRecord K) :
    Decidable (tooClose cfg r) := by
  unfold tooClose; infer_instance

/-- The second test: `std::find(id_range.begin(), id_range.end(), point_t.r) != id_range.end()`,
with `point_t.r = (uint8_t) get_point_source_ID()`. -/
def channelAccepted (cfg : LoopConfig K) (r : LasRecord K) : Prop :=
  ((r.point_source_ID % 256 : Nat) : Int) ∈ cfg.id_range

instance (cfg : LoopConfig K) (r : LasRecord K) : Decidable (channelAccepted cfg r) := by
  unfold channelAccepted; infer_instance

/-- The value of `point_t.timestamp` after `point_t.timestamp += lidar_time_offset`. -/
def adjustedTimestamp [LinearOrderedField K] [FloorRing K] (cfg : LoopConfig K)
    (r : LasRecord K) : Nat :=
  u64add (toU64 r.gps_time) cfg.lidar_time_offset

/-- The tail of the loop body: `index++` on an `unsigned int`, and on a multiple of 10000 the call
`callback((int) (static_cast<double>(index) / points_num * 100))`: the quotient and the product
are computed in `double`, each rounded, and the cast to `int` of the result, which is not
negative, is its floor.  (For `points_num = 0` the C++ value is not defined; the model then
reports 0.) -/
def bump [LinearOrderedField K] [FloorRing K] [Rounding K] (cfg : LoopConfig K) (s : LoopState K) :
    LoopState K :=
  let index := (s.index + 1) % U32
  if index % 10000 = 0 then
    { s with index := index,
             progress := s.progress ++
               [⌊Rounding.fl (Rounding.fl ((index : K) / (cfg.points_num : K)) * 100)⌋] }
  else { s with index := index }

/-- One iteration of the loop body on the record just read. -/
def processPoint [LinearOrderedField K] [FloorRing K] [Rounding K]
    (slerp : Quat K → K → Quat K → Quat K) (cfg : LoopConfig K)
    (s : LoopState K) (r : LasRecord K) : Flow (LoopState K) :=
  if tooClose cfg r then
    Flow.next { s with count0 := s.count0 + 1 }
  else if channelAccepted cfg r then
    let timestamp := adjustedTimestamp cfg r
    if timestamp ≤ cfg.time_min ∨ timestamp ≥ cfg.time_max then
      if timestamp ≥ cfg.time_max then Flow.stop s
      else Flow.next { s with count1 := s.count1 + 1 }
    else
      match poseInterpolation slerp timestamp s.poseQue with
      | (none, que) => Flow.next { s with poseQue := que, count2 := s.count2 + 1 }
      | (some pose, que) =>
        let trans_point := transformPoint cfg.lidarImuTrans ![r.x, r.y, r.z] pose
        Flow.next (bump cfg
          { s with poseQue := que,
                   written := s.written ++
                     [⟨trans_point 0, trans_point 1, trans_point 2, r.intensity % 256,
                       r.point_source_ID % 256, (timestamp : K) * (1 / 1000000000)⟩] })
  else Flow.next (bump cfg s)

/-- The loop `while (lasreader->read_point()) { ... }` over the records of the input, from the
state `s`; the result is the state when the loop is left. -/
def runLoop [LinearOrderedField K] [FloorRing K] [Rounding K]
    (slerp : Quat K → K → Quat K → Quat K) (cfg : LoopConfig K) :
    LoopState K → List (LasRecord K) → LoopState K
  | s, [] => s
  | s, r :: rs =>
    match processPoint slerp cfg s r with
    | Flow.next s1 => runLoop slerp cfg s1 rs
    | Flow.stop s1 => s1

/-- The records on which the loop body ran to its end or to a `continue`: all records up to, and
not including, the one at which the loop was left by `break`. -/
def processed [LinearOrderedField K] [FloorRing K] [Rounding K]
    (slerp : Quat K → K → Quat K → Quat K) (cfg : LoopConfig K) :
    LoopState K → List (LasRecord K) → List (LasRecord K)
  | _, [] => []
  | s, r :: rs =>
    match processPoint slerp cfg s r with
    | Flow.next s1 => r :: processed slerp cfg s1 rs
    | Flow.stop _ => []

/-! ## The pose file and `readPose` -/

/-- One white-space separated field of the pose text as `operator>>(double&)` meets it: text it
reads whole as a number, with the `double` value it reads, or text no number starts with. -/
inductive Token (K : Type) where
  | num (v : K)
  | word

/-- One line of the pose text as `std::getline` yields it: `first` is the character `line[0]`
(the null character for an empty line), `fields` are its white-space separated fields. -/
structure Line (K : Type) where
  first : Char
  fields : List (Token K)

/-- One extraction `poseFS >> v` from the file stream: white space, line ends included, is
skipped and the next field is read.  `none` when the stream fails: end of file, or a field that
is no number.  The rest of the line the field stood on stays in the stream; it is empty or
starts with white space. -/
def extract : List (Line K) → Option (K × List (Line K))
  | [] => none
  | l :: rest =>
    match l.fields with
    | [] => extract rest
    | Token.num v :: fs => some (v, ⟨' ', fs⟩ :: rest)
    | Token.word :: _ => none

/-- The seven values of one record: `timestamp`, `p[0]`, `p[1]`, `p[2]`, `yaw`, `pitch`,
`roll`. -/
structure PoseRecord (K : Type) where
  timestamp : K
  p0 : K
  p1 : K
  p2 : K
  yaw : K
  pitch : K
  roll : K

/-- The statement `poseFS >> timestamp >> outposs->p[0] >> outposs->p[1] >> outposs->p[2] >> yaw
>> pitch >> roll`.  It reads from the file stream `poseFS`, at the position after the line that
`std::getline` has just taken; the string stream built from that line is not read. -/
def readRecord (stream : List (Line K)) : Option (PoseRecord K × List (Line K)) := do
  let (timestamp, s1) ← extract stream
  let (p0, s2) ← extract s1
  let (p1, s3) ← extract s2
  let (p2, s4) ← extract s3
  let (yaw, s5) ← extract s4
  let (pitch, s6) ← extract s5
  let (roll, s7) ← extract s6
  pure (⟨timestamp, p0, p1, p2, yaw, pitch, roll⟩, s7)

/-- The sample `readPose` builds from the values of a record.  The timestamp is
`(uint64_t) (timestamp * 1e9)`: the product is computed in `double` and truncated. -/
def makeSample [LinearOrderedField K] [FloorRing K] [Rounding K] (cos sin : K → K)
    (r : PoseRecord K) :
    POSSMeas K :=
  let rollAngle := angleAxis cos sin (DEG2RAD r.pitch) Axis.X
  let pitchAngle := angleAxis cos sin (DEG2RAD r.roll) Axis.Y
  let yawAngle := angleAxis cos sin (DEG2RAD (-r.yaw)) Axis.Z
  ⟨toU64 (Rounding.fl (r.timestamp * 1000000000)), ![r.p0, r.p1, r.p2],
    (yawAngle.mul pitchAngle).mul rollAngle⟩

/-- The loop `while (poseFS.peek() != EOF)` of `readPose`, for at most `fuel` iterations (every
iteration takes a line, so the number of lines is enough).  The result is the queue of samples
read in full and a flag; the flag is set when an extraction failed: then one more sample, with
members that were not read, has been pushed behind them, and the stream, having failed, reports
end of file. -/
def readLoop [LinearOrderedField K] [FloorRing K] [Rounding K] (cos sin : K → K) :
    Nat → List (Line K) → List (POSSMeas K) → List (POSSMeas K) × Bool
  | 0, _, que => (que, false)
  | _ + 1, [], que => (que, false)
  | fuel + 1, l :: rest, que =>
    if l.first = '#' then readLoop cos sin fuel rest que
    else if ¬ l.first.isDigit then readLoop cos sin fuel rest que
    else
      match readRecord rest with
      | none => (que, true)
      | some (r, rest1) => readLoop cos sin fuel rest1 (que ++ [makeSample cos sin r])

/-- What `readPose` leaves behind. -/
inductive PoseLoad (K : Type) where
  /-- The queue was empty after the loop: "invalid pose file" is printed and the method returns;
  `poseQue` is empty and `utm_offset` is not assigned. -/
  | invalid
  /-- The queue was empty after `pop_back`: `poseQue.front()` is evaluated on an empty deque. -/
  | undefined
  /-- The members `poseQue` and `utm_offset` after the method. -/
  | loaded (poseQue : List (POSSMeas K)) (utm_offset : Fin 3 → K)

/-- The method `readPose(pose_file)` on the lines of the file. -/
def readPose [LinearOrderedField K] [FloorRing K] [Rounding K] (cos sin : K → K)
    (file : List (Line K)) :
    PoseLoad K :=
  match readLoop cos sin file.length file [] with
  | (que, failed) =>
    if que.isEmpty ∧ failed = false then PoseLoad.invalid
    else
      match (if failed then que else que.dropLast) with
      | [] => PoseLoad.undefined
      | a :: rest => PoseLoad.loaded (a :: rest) a.p

/-! ## `writeLasFromPointCloud` and `ConvertToLas` -/

/-- The input LAS file: the header fields the program reads and the records. -/
structure LasInput (K : Type) where
  point_data_format : Nat
  number_of_point_records : Nat
  records : List (LasRecord K)

/-- What `writeLasFromPointCloud` has done when it ran the loop: the offset put in the output
header and the state at the end of the loop (`written` is the content of the output, `index` and
the three counts are the numbers reported). -/
structure Conversion (K : Type) where
  offset : Fin 3 → K
  final : LoopState K

/-- The method `writeLasFromPointCloud`.  `input` is `none` when the reader cannot be opened and
`writerOpens` tells whether the writer can; `none` is returned when the method returns before
the loop. -/
def writeLasFromPointCloud [LinearOrderedField K] [FloorRing K] [Rounding K]
    (slerp : Quat K → K → Quat K → Quat K) (lidarImuTrans : Isometry3 K)
    (utm_offset : Fin 3 → K) (poseQue : List (POSSMeas K)) (input : Option (LasInput K))
    (writerOpens : Bool) (time_min time_max : Nat) (min_distance : K) (lidar_time_offset : Nat)
    (id_range : List Int) : Option (Conversion K) :=
  match input with
  | none => none
  | some lasreader =>
    if lasreader.point_data_format ≠ 1 then none
    else if writerOpens = false then none
    else
      some ⟨utm_offset,
        runLoop slerp
          ⟨time_min, time_max, min_distance, lidar_time_offset, id_range, lidarImuTrans,
            lasreader.number_of_point_records⟩
          (LoopState.init poseQue) lasreader.records⟩

/-- The configuration values `ConvertToLas` reads (`Config::get`). -/
structure Config (K : Type) where
  line_id : List Int
  min_distance : K
  lidar_yaw : K
  lidar_pitch : K
  lidar_roll : K
  lidar_x : K
  lidar_y : K
  lidar_z : K
  lidar_delay : K
  lidar_period : K
  lidar_time_offset : K

/-- The member `lidarImuTrans` as `ConvertToLas` builds it: with
`ea0 = (DEG2RAD(y), DEG2RAD(p), DEG2RAD(r))`,
`R = AngleAxisd(ea0[2], UnitX) * AngleAxisd(ea0[1], UnitY) * AngleAxisd(ea0[0], UnitZ)`. -/
def buildLidarImuTrans [Field K] (cos sin : K → K) (c : Config K) : Isometry3 K :=
  let ea0 : Fin 3 → K := ![DEG2RAD c.lidar_yaw, DEG2RAD c.lidar_pitch, DEG2RAD c.lidar_roll]
  let R := (((angleAxis cos sin (ea0 2) Axis.X).mul (angleAxis cos sin (ea0 1) Axis.Y)).mul
    (angleAxis cos sin (ea0 0) Axis.Z)).toRotationMatrix
  ⟨R, ![c.lidar_x, c.lidar_y, c.lidar_z]⟩

/-- A run of `ConvertToLas`: it reaches undefined behaviour (`front()` of an empty deque), or it
returns, with what `writeLasFromPointCloud` has done. -/
inductive Outcome (K : Type) where
  | undefinedBehaviour
  | returned (result : Option (Conversion K))

/-- The method `ConvertToLas` on the configuration, the lines of the pose file and the input LAS
file. -/
def ConvertToLas [LinearOrderedField K] [FloorRing K] [Rounding K] (cos sin : K → K)
    (slerp : Quat K → K → Quat K → Quat K) (c : Config K) (pose_file : List (Line K))
    (input : Option (LasInput K)) (writerOpens : Bool) : Outcome K :=
  let lidar_time_offset : K :=
    (toU64 (Rounding.fl (c.lidar_time_offset * 1000000000)) : Nat)
  let lidarImuTrans := buildLidarImuTrans cos sin c
  match readPose cos sin pose_file with
  | PoseLoad.invalid => Outcome.undefinedBehaviour
  | PoseLoad.undefined => Outcome.undefinedBehaviour
  | PoseLoad.loaded poseQue utm_offset =>
    match poseQue with
    | [] => Outcome.undefinedBehaviour
    | front :: _ =>
      let time_min :=
        u64add front.timestamp (toU64 (Rounding.fl (c.lidar_delay * 1000000000)))
      let time_max := u64add time_min (toU64 (Rounding.fl (c.lidar_period * 1000000000)))
      Outcome.returned
        (writeLasFromPointCloud slerp lidarImuTrans utm_offset poseQue input writerOpens
          time_min time_max c.min_distance (toU64 lidar_time_offset) c.line_id)

/-! ## Elementary rotations -/

/-- Rotation about the X axis by `θ`, as a matrix. -/
def rotX [Field K] (cos sin : K → K) (θ : K) : Matrix (Fin 3) (Fin 3) K :=
  !![1, 0, 0; 0, cos θ, -sin θ; 0, sin θ, cos θ]

/-- Rotation about the Y axis by `θ`, as a matrix. -/
def rotY [Field K] (cos sin : K → K) (θ : K) : Matrix (Fin 3) (Fin 3) K :=
  !![cos θ, 0, sin θ; 0, 1, 0; -sin θ, 0, cos θ]

/-- Rotation about the Z axis by `θ`, as a matrix. -/
def rotZ [Field K] (cos sin : K → K) (θ : K) : Matrix (Fin 3) (Fin 3) K :=
  !![cos θ, -sin θ, 0; sin θ, cos θ, 0; 0, 0, 1]

/-- The matrix of the map `v ↦ q v q⁻¹ * |q|²` (the homogeneous form of `toRotationMatrix`, equal
to it on unit quaternions). -/
def Quat.conjMatrix [Field K] (q : Quat K) : Matrix (Fin 3) (Fin 3) K :=
  !![q.w * q.w + q.x * q.x - q.y * q.y - q.z * q.z, 2 * q.x * q.y - 2 * q.z * q.w,
       2 * q.x * q.z + 2 * q.y * q.w;
     2 * q.x * q.y + 2 * q.z * q.w, q.w * q.w - q.x * q.x + q.y * q.y - q.z * q.z,
       2 * q.y * q.z - 2 * q.x * q.w;
     2 * q.x * q.z - 2 * q.y * q.w, 2 * q.y * q.z + 2 * q.x * q.w,
       q.w * q.w - q.x * q.x - q.y * q.y + q.z * q.z]

/-- The number of records the loop has written or put in one of the three rejection buckets. -/
def LoopState.tally (s : LoopState K) : Nat :=
  s.written.length + s.count0 + s.count1 + s.count2

/-- The point the loop body writes for the record `r` with the pose `pose`: the arguments of the
setters before `write_point`. -/
def outputPoint [LinearOrderedField K] [FloorRing K] (cfg : LoopConfig K) (r : LasRecord K)
    (pose : Pose K) : LasPoint K :=
  ⟨transformPoint cfg.lidarImuTrans ![r.x, r.y, r.z] pose 0,
    transformPoint cfg.lidarImuTrans ![r.x, r.y, r.z] pose 1,
    transformPoint cfg.lidarImuTrans ![r.x, r.y, r.z] pose 2,
    r.intensity % 256, r.point_source_ID % 256,
    (adjustedTimestamp cfg r : K) * (1 / 1000000000)⟩

/-- The point `p` was written for the record `r`: the record passed the distance test, the
channel test and the time window, `poseInterpolation` returned a pose for its adjusted timestamp
on a queue that is what is left of `que0`, and `p` is the record transformed with that pose. -/
def WrittenFrom [LinearOrderedField K] [FloorRing K] (slerp : Quat K → K → Quat K → Quat K)
    (cfg : LoopConfig K) (que0 : List (POSSMeas K)) (r : LasRecord K) (p : LasPoint K) : Prop :=
  ¬ tooClose cfg r ∧ channelAccepted cfg r ∧
    cfg.time_min < adjustedTimestamp cfg r ∧ adjustedTimestamp cfg r < cfg.time_max ∧
    ∃ que pose, que <:+ que0 ∧
      (poseInterpolation slerp (adjustedTimestamp cfg r) que).1 = some pose ∧
      p = outputPoint cfg r pose

/-- The value passed to `callback` when `index` has reached `10000 * (k + 1)`. -/
def progressValue [LinearOrderedField K] [FloorRing K] [Rounding K] (cfg : LoopConfig K)
    (k : Nat) : Int :=
  ⌊Rounding.fl (Rounding.fl (((10000 * (k + 1) : Nat) : K) / (cfg.points_num : K)) * 100)⌋

/-! ## Sample data -/

/-- The identity isometry. -/
def Isometry3.one [Field K] : Isometry3 K := ⟨1, 0⟩

/-- Linear blend of two quaternions, `(1 - t) * a + t * b`: what spherical interpolation gives
between equal quaternions.  Stands in for `slerp` in the examples. -/
def blend [Field K] (a : Quat K) (t : K) (b : Quat K) : Quat K :=
  ⟨(1 - t) * a.w + t * b.w, (1 - t) * a.x + t * b.x, (1 - t) * a.y + t * b.y,
   (1 - t) * a.z + t * b.z⟩

/-- Pose sample at 0 ns, position `(0, 0, 0)`, identity orientation. -/
def sample0 : POSSMeas ℚ := ⟨0, ![0, 0, 0], Quat.one⟩

/-- Pose sample at 40 000 000 ns, position `(1, 0, 0)`, identity orientation. -/
def sample40 : POSSMeas ℚ := ⟨40000000, ![1, 0, 0], Quat.one⟩

/-- Pose sample at 100 000 000 ns, position `(2, 0, 0)`, identity orientation. -/
def sample100 : POSSMeas ℚ := ⟨100000000, ![2, 0, 0], Quat.one⟩

/-- Loop parameters of the scenario: window `(0, 100 000 000)`, minimum distance 1, no clock
offset, channel 0 accepted, identity sensor transform, one record announced by the header. -/
def scenarioConfig : LoopConfig ℚ := ⟨0, 100000000, 1, 0, [0], Isometry3.one, 1⟩

/-- Input record at `(0, 0, 2)`, channel 0, time 20 000 000 ns. -/
def farPoint : LasRecord ℚ := ⟨0, 0, 2, 0, 0, 20000000⟩

/-- Input record at `(0, 0, 2)`, channel 5 (not accepted by `scenarioConfig`), time
20 000 000 ns. -/
def otherChannelPoint : LasRecord ℚ := ⟨0, 0, 2, 0, 5, 20000000⟩

/-- Input record at the origin on channel 5, time 20 000 000 ns. -/
def nearOtherChannelPoint : LasRecord ℚ := ⟨0, 0, 0, 0, 5, 20000000⟩

/-- Input record at the origin on channel 0, time 200 000 000 ns (past the window). -/
def nearLatePoint : LasRecord ℚ := ⟨0, 0, 0, 0, 0, 200000000⟩

/-- Input record at `(0, 0, 2)`, channel 0, time 200 000 000 ns (past the window). -/
def farLatePoint : LasRecord ℚ := ⟨0, 0, 2, 0, 0, 200000000⟩

/-- Stand-in for `cos` in the examples: `1 - x ^ 2 / 2`, exact at 0. -/
def cosApprox (x : ℚ) : ℚ := 1 - x * x / 2

/-- Stand-in for `sin` in the examples: `x`, exact at 0. -/
def sinApprox (x : ℚ) : ℚ := x

/-- The pose line `0 0 0 0 0 0 0`. -/
def line0 : Line ℚ :=
  ⟨'0', [Token.num 0, Token.num 0, Token.num 0, Token.num 0, Token.num 0, Token.num 0,
    Token.num 0]⟩

/-- The pose line `0.04 1 0 0 0 0 0`; the first field is read as the `double` nearest to
0.04. -/
def line40 : Line ℚ :=
  ⟨'0', [Token.num (5764607523034235 / 144115188075855872), Token.num 1, Token.num 0,
    Token.num 0, Token.num 0, Token.num 0,
    Token.num 0]⟩

/-- The pose line `0.1 2 0 0 0 0 0`; the first field is read as the `double` nearest to
0.1. -/
def line100 : Line ℚ :=
  ⟨'0', [Token.num (3602879701896397 / 36028797018963968), Token.num 2, Token.num 0,
    Token.num 0, Token.num 0, Token.num 0,
    Token.num 0]⟩

/-- Configuration of the scenario: channel 0, minimum distance 1, no rotation and no translation
of the sensor, no delay, a period of 0.1 s (the nearest `double`), no clock offset. -/
def scenarioSettings : Config ℚ :=
  ⟨[0], 1, 0, 0, 0, 0, 0, 0, 0, 3602879701896397 / 36028797018963968, 0⟩

/-- The input file of the scenario: format 1, one record, `farPoint`. -/
def scenarioInput : LasInput ℚ := ⟨1, 1, [farPoint]⟩

/-- The pose line `# comment`. -/
def commentLine : Line ℚ := ⟨'#', [Token.word, Token.word]⟩

/-- Loop parameters as `scenarioConfig`, with a million records announced by the header. -/
def millionConfig : LoopConfig ℚ := ⟨0, 100000000, 1, 0, [0], Isometry3.one, 1000000⟩

/-- A stream of a million records, all `otherChannelPoint`. -/
def millionStream : List (LasRecord ℚ) := List.replicate 1000000 otherChannelPoint

/-- A pose record whose timestamp is the `double` nearest to 4.35 s. -/
def double435Record : PoseRecord ℚ := ⟨2448832297382707 / 562949953421312, 0, 0, 0, 0, 0, 0⟩

/-- A pose record whose timestamp is the `double` nearest to 0.0000000007 s (0.7 ns). -/
def subNanoRecord : PoseRecord ℚ :=
  ⟨6769984589841923 / 9671406556917033397649408, 0, 0, 0, 0, 0, 0⟩

/-- The pose half way between `sample0` and `sample40`. -/
def halfWayPose : Pose ℚ := ⟨![1 / 2, 0, 0], Quat.one⟩

end Model


/-! # Properties -/

section Properties

variable {K : Type}

/-! ## Double rounding -/

theorem fl_rat (x : ℚ) : Rounding.fl x = roundDouble x := rfl

/-- Rounding to a multiple of `2 ^ (-k)` moves a value by at most half of `2 ^ (-k)`. -/
theorem roundAt_error (k : Int) (x : ℚ) : |roundAt k x - x| ≤ 1 / 2 / 2 ^ k := by
  have hk : (0 : ℚ) < 2 ^ k := by positivity
  have hfl := Int.floor_le (x * 2 ^ k)
  have hlt := Int.lt_floor_add_one (x * 2 ^ k)
  have key : ∀ m : ℚ, |m - x * 2 ^ k| ≤ 1 / 2 → |m / 2 ^ k - x| ≤ 1 / 2 / 2 ^ k := by
    intro m hm
    have : m / 2 ^ k - x = (m - x * 2 ^ k) / 2 ^ k := by
      field_simp
      ring
    rw [this, abs_div, abs_of_pos hk]
    exact div_le_div_of_nonneg_right hm hk.le
  unfold roundAt
  split_ifs with h1 h2 h3
  · apply key
    rw [abs_le]
    constructor <;> linarith
  · apply key
    rw [abs_le]
    constructor <;> linarith
  · apply key
    rw [abs_le]
    constructor <;> linarith
  · apply key
    rw [abs_le]
    constructor <;> linarith

/-- The relative error of rounding to `double` is at most `2 ^ (-53)`. -/
theorem roundDouble_error (x : ℚ) (hx : 0 ≤ x) : |roundDouble x - x| ≤ x / 2 ^ 53 := by
  unfold roundDouble
  split_ifs with h0
  · simp [h0]
  · have hpos : 0 < x := lt_of_le_of_ne hx (Ne.symm h0)
    have hlog : (2 : ℚ) ^ Int.log 2 |x| ≤ x := by
      have := Int.zpow_log_le_self (b := 2) (r := |x|) (by norm_num) (abs_pos.mpr h0)
      calc (2 : ℚ) ^ Int.log 2 |x| ≤ |x| := by simpa using this
        _ = x := abs_of_pos hpos
    refine (roundAt_error _ x).trans ?_
    have h2 : (2 : ℚ) ^ (52 - Int.log 2 |x|) = 2 ^ (52 : Int) / 2 ^ Int.log 2 |x| := by
      rw [zpow_sub₀ (by norm_num)]
    have hp : (0 : ℚ) < 2 ^ Int.log 2 |x| := by positivity
    rw [h2]
    have : (1 : ℚ) / 2 / (2 ^ (52 : Int) / 2 ^ Int.log 2 |x|) = 2 ^ Int.log 2 |x| / 2 ^ 53 := by
      field_simp
      norm_num
    rw [this]
    exact div_le_div_of_nonneg_right hlog (by positivity)

theorem log_of_binade (x : ℚ) (e : Int) (h1 : (2 : ℚ) ^ e ≤ x) (h2 : x < 2 ^ (e + 1)) :
    Int.log 2 |x| = e := by
  have hpos : 0 < x := lt_of_lt_of_le (by positivity) h1
  rw [abs_of_pos hpos]
  apply le_antisymm
  · have := (Int.lt_zpow_iff_log_lt (b := 2) (by norm_num) hpos (x := e + 1)).mp
      (by simpa using h2)
    omega
  · exact (Int.zpow_le_iff_le_log (b := 2) (by norm_num) hpos).mp (by simpa using h1)

/-- The value of `roundDouble` at `x` in the binade `[2 ^ e, 2 ^ (e + 1))` when `x` lies less than
half a unit of the last place above the multiple `n`. -/
theorem roundDouble_down (x : ℚ) (e n : Int) (h1 : (2 : ℚ) ^ e ≤ x) (h2 : x < 2 ^ (e + 1))
    (hn : (n : ℚ) ≤ x * 2 ^ (52 - e)) (hf : x * 2 ^ (52 - e) - n < 1 / 2) :
    roundDouble x = n / 2 ^ (52 - e) := by
  have hpos : 0 < x := lt_of_lt_of_le (by positivity) h1
  have hfloor : ⌊x * 2 ^ (52 - e)⌋ = n := by
    rw [Int.floor_eq_iff]
    constructor
    · exact hn
    · linarith
  unfold roundDouble
  rw [if_neg hpos.ne', log_of_binade x e h1 h2]
  unfold roundAt
  rw [hfloor, if_pos hf]

/-- The value of `roundDouble` at `x` in the binade `[2 ^ e, 2 ^ (e + 1))` when `x` lies more than
half a unit of the last place above the multiple `n`. -/
theorem roundDouble_up (x : ℚ) (e n : Int) (h1 : (2 : ℚ) ^ e ≤ x) (h2 : x < 2 ^ (e + 1))
    (hn : (n : ℚ) + 1 / 2 < x * 2 ^ (52 - e)) (hf : x * 2 ^ (52 - e) < n + 1) :
    roundDouble x = (n + 1) / 2 ^ (52 - e) := by
  have hpos : 0 < x := lt_of_lt_of_le (by positivity) h1
  have hfloor : ⌊x * 2 ^ (52 - e)⌋ = n := by
    rw [Int.floor_eq_iff]
    constructor
    · linarith
    · exact hf
  unfold roundDouble
  rw [if_neg hpos.ne', log_of_binade x e h1 h2]
  unfold roundAt
  rw [hfloor, if_neg (by linarith), if_pos (by linarith)]

/-- The `double` product of the `double` nearest to 0.04 and `1e9` is 40000000. -/
theorem roundDouble_40000000 :
    roundDouble (5764607523034235 / 144115188075855872 * 1000000000) = 40000000 := by
  rw [roundDouble_down (5764607523034235 / 144115188075855872 * 1000000000) 25
    5368709120000000 (by norm_num) (by norm_num) (by norm_num) (by norm_num)]
  norm_num

/-! ## Machine arithmetic -/

theorem u64sub_of_le {a b : Nat} (hle : b ≤ a) (hlt : a - b < U64) : u64sub a b = a - b := by
  unfold u64sub
  unfold U64 at *
  omega

/-- The test `time_duration < 0.05` of `poseInterpolation`, on the integer gap. -/
theorem duration_lt_iff [LinearOrderedField K] (n : Nat) :
    ((n : K) * (1 / 1000000000) < 5 / 100) ↔ n < 50000000 := by
  have h9 : (0 : K) < 1000000000 := by norm_num
  rw [mul_one_div, div_lt_iff₀ h9]
  have : (5 / 100 * 1000000000 : K) = ((50000000 : Nat) : K) := by norm_num
  rw [this, Nat.cast_lt]

/-! ## The queue scan -/

theorem advance_nil (q : Nat) : advance q ([] : List (POSSMeas K)) = [] := rfl

theorem advance_single (q : Nat) (a : POSSMeas K) : advance q [a] = [a] := rfl

theorem advance_cons_cons (q : Nat) (a b : POSSMeas K) (rest : List (POSSMeas K)) :
    advance q (a :: b :: rest) =
      if b.timestamp > q then a :: b :: rest else advance q (b :: rest) := rfl

/-- Samples in front of `a` are popped when they and `a` are not later than the query. -/
theorem advance_append_of_le (q : Nat) (a : POSSMeas K) (rest : List (POSSMeas K)) :
    ∀ pre : List (POSSMeas K), (∀ x ∈ pre, x.timestamp ≤ q) → a.timestamp ≤ q →
      advance q (pre ++ a :: rest) = advance q (a :: rest)
  | [], _, _ => rfl
  | [x], _, ha => by
    simp [advance_cons_cons, not_lt.mpr ha]
  | x :: y :: pre, hpre, ha => by
    have hy : y.timestamp ≤ q := hpre y (by simp)
    have ih := advance_append_of_le q a rest (y :: pre)
      (fun z hz => hpre z (List.mem_cons_of_mem _ hz)) ha
    simp only [List.cons_append] at ih ⊢
    rw [advance_cons_cons, if_neg (not_lt.mpr hy)]
    exact ih

/-! ## Interpolation between two adjacent samples -/

/-- The interpolation parameter computed by `poseInterpolation` is the fraction of the bracket. -/
theorem interpolate_bracket [LinearOrderedField K] (slerp : Quat K → K → Quat K → Quat K)
    (A B : POSSMeas K) (post : List (POSSMeas K)) (q : Nat)
    (hgap : B.timestamp - A.timestamp < 50000000)
    (hlo : A.timestamp ≤ q) (hhi : q < B.timestamp) :
    interpolate slerp q (A :: B :: post) =
      some ⟨A.p + (((q : K) - (A.timestamp : K)) / ((B.timestamp : K) - (A.timestamp : K))) •
              (B.p - A.p),
            slerp A.q (((q : K) - (A.timestamp : K)) / ((B.timestamp : K) - (A.timestamp : K)))
              B.q⟩ := by
  have hAB : A.timestamp ≤ B.timestamp := by omega
  have h1 : u64sub B.timestamp A.timestamp = B.timestamp - A.timestamp :=
    u64sub_of_le hAB (by unfold U64; omega)
  have h2 : u64sub q A.timestamp = q - A.timestamp :=
    u64sub_of_le hlo (by unfold U64; omega)
  have hpos : (0 : K) < (B.timestamp : K) - (A.timestamp : K) := by
    have : (A.timestamp : K) < (B.timestamp : K) := by
      exact_mod_cast (by omega : A.timestamp < B.timestamp)
    linarith
  have ht : ((q - A.timestamp : Nat) : K) * (1 / 1000000000) /
      (((B.timestamp - A.timestamp : Nat) : K) * (1 / 1000000000)) =
      ((q : K) - (A.timestamp : K)) / ((B.timestamp : K) - (A.timestamp : K)) := by
    rw [Nat.cast_sub hlo, Nat.cast_sub hAB]
    field_simp
  simp only [interpolate, if_pos hlo, h1, h2, if_pos ((duration_lt_iff _).mpr hgap), ht]

/-- C1: on a queue whose timestamps are non-decreasing, for adjacent samples `A`, `B` less than
50 ms apart and a query `q` with `A.timestamp ≤ q < B.timestamp` (so the gap is positive),
`poseInterpolation q` returns a pose: position `A.p + f * (B.p - A.p)` and orientation
`slerp (A.q, B.q, f)` with `f = (q - t0) / (t1 - t0)`. -/
theorem poseInterpolation_adjacent [LinearOrderedField K] (slerp : Quat K → K → Quat K → Quat K)
    (pre post : List (POSSMeas K)) (A B : POSSMeas K) (q : Nat)
    (hsorted : (pre ++ A :: B :: post).Pairwise (fun a b => a.timestamp ≤ b.timestamp))
    (hgap : B.timestamp - A.timestamp < 50000000)
    (hlo : A.timestamp ≤ q) (hhi : q < B.timestamp) :
    (poseInterpolation slerp q (pre ++ A :: B :: post)).1 =
      some ⟨A.p + (((q : K) - (A.timestamp : K)) / ((B.timestamp : K) - (A.timestamp : K))) •
              (B.p - A.p),
            slerp A.q (((q : K) - (A.timestamp : K)) / ((B.timestamp : K) - (A.timestamp : K)))
              B.q⟩ := by
  have hpre : ∀ x ∈ pre, x.timestamp ≤ q := by
    intro x hx
    have := (List.pairwise_append.mp hsorted).2.2 x hx A (by simp)
    omega
  have hadv : advance q (pre ++ A :: B :: post) = A :: B :: post := by
    rw [advance_append_of_le q A (B :: post) pre hpre hlo, advance_cons_cons, if_pos hhi]
  simp only [poseInterpolation, hadv]
  exact interpolate_bracket slerp A B post q hgap hlo hhi

/-! ## Queries without a pose -/

theorem interpolate_short [LinearOrderedField K] (slerp : Quat K → K → Quat K → Quat K)
    (q : Nat) (que : List (POSSMeas K)) (h : que.length < 2) :
    interpolate slerp q que = none :=
  match que, h with
  | [], _ => rfl
  | [_], _ => rfl
  | _ :: _ :: _, h => by
    simp only [List.length_cons] at h
    omega

theorem advance_short (q : Nat) (que : List (POSSMeas K)) (h : que.length < 2) :
    advance q que = que :=
  match que, h with
  | [], _ => rfl
  | [_], _ => rfl
  | _ :: _ :: _, h => by
    simp only [List.length_cons] at h
    omega

/-- When no sample is later than the query, the scan leaves a single sample (or none). -/
theorem advance_all_le (q : Nat) :
    ∀ que : List (POSSMeas K), (∀ x ∈ que, x.timestamp ≤ q) → (advance q que).length < 2
  | [], _ => by simp [advance_nil]
  | [_], _ => by simp [advance_single]
  | a :: b :: rest, h => by
    have hb : b.timestamp ≤ q := h b (by simp)
    rw [advance_cons_cons, if_neg (not_lt.mpr hb)]
    exact advance_all_le q (b :: rest) (fun x hx => h x (List.mem_cons_of_mem _ hx))

/-- C2: on a queue of `uint64_t` timestamps in non-decreasing order, `poseInterpolation q`
returns no pose (1) when the queue holds fewer than two samples, (2) when `q` is smaller than the
timestamp of the front sample, (3) when `q` is at least the timestamp of the last sample, and
(4) when the adjacent samples bracketing `q` are 50 ms or more apart. -/
theorem poseInterpolation_none [LinearOrderedField K] (slerp : Quat K → K → Quat K → Quat K)
    (que : List (POSSMeas K)) (q : Nat)
    (hsorted : que.Pairwise (fun a b => a.timestamp ≤ b.timestamp))
    (hrange : ∀ x ∈ que, x.timestamp < U64) :
    (que.length < 2 → (poseInterpolation slerp q que).1 = none) ∧
    (∀ a, que.head? = some a → q < a.timestamp → (poseInterpolation slerp q que).1 = none) ∧
    (∀ l, que.getLast? = some l → l.timestamp ≤ q →
      (poseInterpolation slerp q que).1 = none) ∧
    (∀ pre A B post, que = pre ++ A :: B :: post → A.timestamp ≤ q → q < B.timestamp →
      50000000 ≤ B.timestamp - A.timestamp → (poseInterpolation slerp q que).1 = none) := by
  refine ⟨?_, ?_, ?_, ?_⟩
  · intro h
    simp only [poseInterpolation, advance_short q que h]
    exact interpolate_short slerp q que h
  · intro a ha hq
    match que, ha, hsorted with
    | [x], ha, _ =>
      simp only [List.head?_cons, Option.some.injEq] at ha
      subst ha
      rfl
    | x :: b :: rest, ha, hs =>
      simp only [List.head?_cons, Option.some.injEq] at ha
      subst ha
      have hxb : x.timestamp ≤ b.timestamp := (List.pairwise_cons.mp hs).1 b (by simp)
      have hb : b.timestamp > q := by omega
      simp only [poseInterpolation, advance_cons_cons, if_pos hb, interpolate,
        if_neg (not_le.mpr hq)]
  · intro l hl hq
    have hall : ∀ x ∈ que, x.timestamp ≤ q := by
      intro x hx
      have hmem : l ∈ que := List.mem_of_getLast?_eq_some hl
      obtain ⟨init, hinit⟩ : ∃ init, que = init ++ [l] := by
        have := List.getLast?_eq_some_iff.mp hl
        exact this
      rw [hinit] at hx hsorted
      rcases List.mem_append.mp hx with hx1 | hx1
      · have := (List.pairwise_append.mp hsorted).2.2 x hx1 l (by simp)
        omega
      · simp only [List.mem_singleton] at hx1
        subst hx1
        exact hq
    simp only [poseInterpolation]
    exact interpolate_short slerp q _ (advance_all_le q que hall)
  · intro pre A B post hque hlo hhi hgap
    subst hque
    have hpre : ∀ x ∈ pre, x.timestamp ≤ q := by
      intro x hx
      have := (List.pairwise_append.mp hsorted).2.2 x hx A (by simp)
      omega
    have hadv : advance q (pre ++ A :: B :: post) = A :: B :: post := by
      rw [advance_append_of_le q A (B :: post) pre hpre hlo, advance_cons_cons, if_pos hhi]
    have hB : B.timestamp < U64 := hrange B (by simp)
    have h1 : u64sub B.timestamp A.timestamp = B.timestamp - A.timestamp :=
      u64sub_of_le (by omega) (by omega)
    have hdur : ¬ ((B.timestamp - A.timestamp : Nat) : K) * (1 / 1000000000) < 5 / 100 := by
      rw [duration_lt_iff]
      omega
    simp only [poseInterpolation, hadv, interpolate, if_pos hlo, h1, if_neg hdur]

/-! ## Successive queries -/

/-- Scanning for a later query after an earlier one ends where the later scan alone ends. -/
theorem advance_advance (q1 q2 : Nat) (h : q1 ≤ q2) :
    ∀ que : List (POSSMeas K), advance q2 (advance q1 que) = advance q2 que
  | [] => rfl
  | [_] => rfl
  | a :: b :: rest => by
    by_cases hb : b.timestamp > q1
    · rw [advance_cons_cons q1, if_pos hb]
    · have hb2 : ¬ b.timestamp > q2 := by omega
      rw [advance_cons_cons q1, if_neg hb, advance_cons_cons q2, if_neg hb2]
      exact advance_advance q1 q2 h (b :: rest)

/-- C6: for any queue and queries `q1 ≤ q2`, the call `poseInterpolation q2` made after
`poseInterpolation q1` returns the same pose and leaves the same queue as `poseInterpolation q2`
made on the original queue; a query repeated at the same timestamp returns the same pose and
leaves the queue as it found it. -/
theorem poseInterpolation_sweep [LinearOrderedField K] (slerp : Quat K → K → Quat K → Quat K)
    (que : List (POSSMeas K)) (q1 q2 : Nat) (h : q1 ≤ q2) :
    poseInterpolation slerp q2 (poseInterpolation slerp q1 que).2 =
      poseInterpolation slerp q2 que ∧
    (poseInterpolation slerp q1 (poseInterpolation slerp q1 que).2).1 =
      (poseInterpolation slerp q1 que).1 ∧
    (poseInterpolation slerp q1 (poseInterpolation slerp q1 que).2).2 =
      (poseInterpolation slerp q1 que).2 := by
  simp only [poseInterpolation, advance_advance q1 q2 h, advance_advance q1 q1 le_rfl,
    and_self]

/-! ## The point loop -/

theorem bump_written [LinearOrderedField K] [FloorRing K] [Rounding K] (cfg : LoopConfig K)
    (s : LoopState K) : (bump cfg s).written = s.written := by
  simp only [bump]
  split <;> rfl

theorem bump_counts [LinearOrderedField K] [FloorRing K] [Rounding K] (cfg : LoopConfig K)
    (s : LoopState K) :
    (bump cfg s).count0 = s.count0 ∧ (bump cfg s).count1 = s.count1 ∧
      (bump cfg s).count2 = s.count2 ∧ (bump cfg s).poseQue = s.poseQue := by
  simp only [bump]
  split <;> exact ⟨rfl, rfl, rfl, rfl⟩

theorem bump_tally [LinearOrderedField K] [FloorRing K] [Rounding K] (cfg : LoopConfig K)
    (s : LoopState K) : (bump cfg s).tally = s.tally := by
  obtain ⟨h0, h1, h2, _⟩ := bump_counts cfg s
  simp only [LoopState.tally, bump_written, h0, h1, h2]

/-- An iteration that goes on to the next record adds one to the tally exactly when the record is
too close or is on an accepted channel. -/
theorem processPoint_next_tally [LinearOrderedField K] [FloorRing K] [Rounding K]
    (slerp : Quat K → K → Quat K → Quat K) (cfg : LoopConfig K) (s s1 : LoopState K)
    (r : LasRecord K) (h : processPoint slerp cfg s r = Flow.next s1) :
    s1.tally = s.tally + (if tooClose cfg r ∨ channelAccepted cfg r then 1 else 0) := by
  unfold processPoint at h
  by_cases hc : tooClose cfg r
  · rw [if_pos hc] at h
    cases h
    simp only [hc, true_or, if_true, LoopState.tally]
    omega
  · rw [if_neg hc] at h
    by_cases ha : channelAccepted cfg r
    · rw [if_pos ha] at h
      simp only [hc, ha, or_true, if_true]
      by_cases hw : adjustedTimestamp cfg r ≤ cfg.time_min ∨
          adjustedTimestamp cfg r ≥ cfg.time_max
      · simp only [if_pos hw] at h
        by_cases hm : adjustedTimestamp cfg r ≥ cfg.time_max
        · rw [if_pos hm] at h
          cases h
        · rw [if_neg hm] at h
          cases h
          simp only [LoopState.tally]
          omega
      · simp only [if_neg hw] at h
        cases hp : poseInterpolation slerp (adjustedTimestamp cfg r) s.poseQue with
        | mk pose que =>
          rw [hp] at h
          cases pose with
          | none =>
            cases h
            simp only [LoopState.tally]
            omega
          | some pose =>
            cases h
            rw [bump_tally]
            simp only [LoopState.tally, List.length_append, List.length_singleton]
            omega
    · rw [if_neg ha] at h
      cases h
      simp only [hc, ha, or_self, if_false, bump_tally, add_zero]

/-- An iteration leaves the loop only on a record that passed the distance and channel tests and
whose adjusted timestamp is not below `time_max`; it leaves the state as it was. -/
theorem processPoint_stop [LinearOrderedField K] [FloorRing K] [Rounding K]
    (slerp : Quat K → K → Quat K → Quat K) (cfg : LoopConfig K) (s s1 : LoopState K)
    (r : LasRecord K) (h : processPoint slerp cfg s r = Flow.stop s1) :
    s1 = s ∧ ¬ tooClose cfg r ∧ channelAccepted cfg r ∧
      cfg.time_max ≤ adjustedTimestamp cfg r := by
  unfold processPoint at h
  by_cases hc : tooClose cfg r
  · rw [if_pos hc] at h
    cases h
  · rw [if_neg hc] at h
    by_cases ha : channelAccepted cfg r
    · rw [if_pos ha] at h
      by_cases hw : adjustedTimestamp cfg r ≤ cfg.time_min ∨
          adjustedTimestamp cfg r ≥ cfg.time_max
      · simp only [if_pos hw] at h
        by_cases hm : adjustedTimestamp cfg r ≥ cfg.time_max
        · rw [if_pos hm] at h
          cases h
          exact ⟨rfl, hc, ha, hm⟩
        · rw [if_neg hm] at h
          cases h
      · simp only [if_neg hw] at h
        cases hp : poseInterpolation slerp (adjustedTimestamp cfg r) s.poseQue with
        | mk pose que =>
          rw [hp] at h
          cases pose with
          | none => cases h
          | some pose => cases h
    · rw [if_neg ha] at h
      cases h

/-- The loop is left at a record that passed the distance and channel tests and whose adjusted
timestamp is not below `time_max`, whatever the state. -/
theorem processPoint_late [LinearOrderedField K] [FloorRing K] [Rounding K]
    (slerp : Quat K → K → Quat K → Quat K) (cfg : LoopConfig K) (s : LoopState K)
    (r : LasRecord K) (hc : ¬ tooClose cfg r) (ha : channelAccepted cfg r)
    (hm : cfg.time_max ≤ adjustedTimestamp cfg r) :
    processPoint slerp cfg s r = Flow.stop s := by
  unfold processPoint
  rw [if_neg hc, if_pos ha]
  simp only [ge_iff_le, hm, or_true, if_true]

theorem runLoop_cons [LinearOrderedField K] [FloorRing K] [Rounding K]
    (slerp : Quat K → K → Quat K → Quat K) (cfg : LoopConfig K) (s : LoopState K)
    (r : LasRecord K) (rs : List (LasRecord K)) :
    runLoop slerp cfg s (r :: rs) =
      match processPoint slerp cfg s r with
      | Flow.next s1 => runLoop slerp cfg s1 rs
      | Flow.stop s1 => s1 := rfl

theorem processed_cons [LinearOrderedField K] [FloorRing K] [Rounding K]
    (slerp : Quat K → K → Quat K → Quat K) (cfg : LoopConfig K) (s : LoopState K)
    (r : LasRecord K) (rs : List (LasRecord K)) :
    processed slerp cfg s (r :: rs) =
      match processPoint slerp cfg s r with
      | Flow.next s1 => r :: processed slerp cfg s1 rs
      | Flow.stop _ => [] := rfl

/-- The tally grows by the number of processed records that were too close or on an accepted
channel, from any state. -/
theorem runLoop_tally [LinearOrderedField K] [FloorRing K] [Rounding K]
    (slerp : Quat K → K → Quat K → Quat K) (cfg : LoopConfig K) :
    ∀ (rs : List (LasRecord K)) (s : LoopState K),
      (runLoop slerp cfg s rs).tally = s.tally +
        ((processed slerp cfg s rs).filter
          (fun r => decide (tooClose cfg r ∨ channelAccepted cfg r))).length
  | [], s => by simp [runLoop, processed]
  | r :: rs, s => by
    rw [runLoop_cons, processed_cons]
    cases hp : processPoint slerp cfg s r with
    | next s1 =>
      have h1 := processPoint_next_tally slerp cfg s s1 r hp
      have ih := runLoop_tally slerp cfg rs s1
      simp only [ih, h1, List.filter_cons]
      by_cases hd : tooClose cfg r ∨ channelAccepted cfg r
      · simp only [hd, if_true, decide_True, List.length_cons]
        omega
      · simp only [hd, if_false, decide_False, add_zero, Bool.false_eq_true]
    | stop s1 =>
      have h1 := (processPoint_stop slerp cfg s s1 r hp).1
      simp [h1]

/-- What an iteration that goes on does to the output: nothing, or it appends the transformed
record, and then the record passed the four tests. -/
theorem processPoint_next_written [LinearOrderedField K] [FloorRing K] [Rounding K]
    (slerp : Quat K → K → Quat K → Quat K) (cfg : LoopConfig K) (s s1 : LoopState K)
    (r : LasRecord K) (h : processPoint slerp cfg s r = Flow.next s1) :
    s1.written = s.written ∨
      (¬ tooClose cfg r ∧ channelAccepted cfg r ∧
        cfg.time_min < adjustedTimestamp cfg r ∧ adjustedTimestamp cfg r < cfg.time_max ∧
        ∃ pose, (poseInterpolation slerp (adjustedTimestamp cfg r) s.poseQue).1 = some pose ∧
          s1.written = s.written ++
            [⟨transformPoint cfg.lidarImuTrans ![r.x, r.y, r.z] pose 0,
              transformPoint cfg.lidarImuTrans ![r.x, r.y, r.z] pose 1,
              transformPoint cfg.lidarImuTrans ![r.x, r.y, r.z] pose 2,
              r.intensity % 256, r.point_source_ID % 256,
              (adjustedTimestamp cfg r : K) * (1 / 1000000000)⟩]) := by
  unfold processPoint at h
  by_cases hc : tooClose cfg r
  · rw [if_pos hc] at h
    cases h
    exact Or.inl rfl
  · rw [if_neg hc] at h
    by_cases ha : channelAccepted cfg r
    · rw [if_pos ha] at h
      by_cases hw : adjustedTimestamp cfg r ≤ cfg.time_min ∨
          adjustedTimestamp cfg r ≥ cfg.time_max
      · simp only [if_pos hw] at h
        by_cases hm : adjustedTimestamp cfg r ≥ cfg.time_max
        · rw [if_pos hm] at h
          cases h
        · rw [if_neg hm] at h
          cases h
          exact Or.inl rfl
      · simp only [if_neg hw] at h
        have hlo : cfg.time_min < adjustedTimestamp cfg r := by
          by_contra hcon
          exact hw (Or.inl (not_lt.mp hcon))
        have hhi : adjustedTimestamp cfg r < cfg.time_max := by
          by_contra hcon
          exact hw (Or.inr (not_lt.mp hcon))
        cases hp : poseInterpolation slerp (adjustedTimestamp cfg r) s.poseQue with
        | mk pose que =>
          rw [hp] at h
          cases pose with
          | none =>
            cases h
            exact Or.inl rfl
          | some pose =>
            cases h
            refine Or.inr ⟨hc, ha, hlo, hhi, pose, rfl, ?_⟩
            rw [bump_written]
    · rw [if_neg ha] at h
      cases h
      exact Or.inl (bump_written cfg s)

/-- Every point the loop writes carries a time below `time_max`. -/
theorem runLoop_written_lt [LinearOrderedField K] [FloorRing K] [Rounding K]
    (slerp : Quat K → K → Quat K → Quat K) (cfg : LoopConfig K) :
    ∀ (rs : List (LasRecord K)) (s : LoopState K),
      (∀ p ∈ s.written, p.gps_time < (cfg.time_max : K) * (1 / 1000000000)) →
      ∀ p ∈ (runLoop slerp cfg s rs).written,
        p.gps_time < (cfg.time_max : K) * (1 / 1000000000)
  | [], _, hs => hs
  | r :: rs, s, hs => by
    rw [runLoop_cons]
    cases hp : processPoint slerp cfg s r with
    | next s1 =>
      refine runLoop_written_lt slerp cfg rs s1 ?_
      rcases processPoint_next_written slerp cfg s s1 r hp with hw | ⟨_, _, _, hhi, _, _, hw⟩
      · rw [hw]
        exact hs
      · rw [hw]
        intro p hpm
        rcases List.mem_append.mp hpm with h1 | h1
        · exact hs p h1
        · simp only [List.mem_singleton] at h1
          subst h1
          have : (adjustedTimestamp cfg r : K) < (cfg.time_max : K) := by exact_mod_cast hhi
          have h9 : (0 : K) < 1 / 1000000000 := by norm_num
          exact mul_lt_mul_of_pos_right this h9
    | stop s1 =>
      rw [(processPoint_stop slerp cfg s s1 r hp).1]
      exact hs

/-- The loop does not look past a record at which it is left. -/
theorem runLoop_append_late [LinearOrderedField K] [FloorRing K] [Rounding K]
    (slerp : Quat K → K → Quat K → Quat K) (cfg : LoopConfig K) (r : LasRecord K)
    (post : List (LasRecord K)) (hc : ¬ tooClose cfg r) (ha : channelAccepted cfg r)
    (hm : cfg.time_max ≤ adjustedTimestamp cfg r) :
    ∀ (pre : List (LasRecord K)) (s : LoopState K),
      runLoop slerp cfg s (pre ++ r :: post) = runLoop slerp cfg s pre ∧
      processed slerp cfg s (pre ++ r :: post) = processed slerp cfg s pre
  | [], s => by
    simp only [List.nil_append, runLoop_cons, processed_cons,
      processPoint_late slerp cfg s r hc ha hm]
    exact ⟨rfl, rfl⟩
  | x :: pre, s => by
    simp only [List.cons_append, runLoop_cons, processed_cons]
    cases hp : processPoint slerp cfg s x with
    | next s1 =>
      have ih := runLoop_append_late slerp cfg r post hc ha hm pre s1
      simp only [ih.1, ih.2, and_self]
    | stop s1 => simp only [and_self]

/-! ## Claims on the point loop -/

/-- C3 (amended): when the loop is left, the number of points written plus the three rejection
counts `count[0]`, `count[1]`, `count[2]` equals the number of processed records (the record at
which the loop was left by `break` is not among them) that were too close or were on an accepted
channel. -/
theorem loop_counts [LinearOrderedField K] [FloorRing K] [Rounding K]
    (slerp : Quat K → K → Quat K → Quat K) (cfg : LoopConfig K)
    (que : List (POSSMeas K)) (rs : List (LasRecord K)) :
    (runLoop slerp cfg (LoopState.init que) rs).written.length +
        (runLoop slerp cfg (LoopState.init que) rs).count0 +
        (runLoop slerp cfg (LoopState.init que) rs).count1 +
        (runLoop slerp cfg (LoopState.init que) rs).count2 =
      ((processed slerp cfg (LoopState.init que) rs).filter
        (fun r => decide (tooClose cfg r ∨ channelAccepted cfg r))).length := by
  have h := runLoop_tally slerp cfg rs (LoopState.init que)
  simp only [LoopState.tally, LoopState.init, List.length_nil, zero_add] at h
  exact h

/-- C3 (as stated) fails: a single record at the origin on a channel that is not accepted is
counted in `count[0]`, so the four reported counts add up to 1 while no record read is on an
accepted channel. -/
theorem counts_near_other_channel :
    (runLoop blend scenarioConfig (LoopState.init [sample0, sample40])
        [nearOtherChannelPoint]).index +
      (runLoop blend scenarioConfig (LoopState.init [sample0, sample40])
        [nearOtherChannelPoint]).count0 +
      (runLoop blend scenarioConfig (LoopState.init [sample0, sample40])
        [nearOtherChannelPoint]).count1 +
      (runLoop blend scenarioConfig (LoopState.init [sample0, sample40])
        [nearOtherChannelPoint]).count2 = 1 ∧
    ([nearOtherChannelPoint].filter
      (fun r => decide (channelAccepted scenarioConfig r))).length = 0 := by
  constructor
  · simp [runLoop, processPoint, tooClose, nearOtherChannelPoint, scenarioConfig,
      LoopState.init]
  · norm_num [channelAccepted, nearOtherChannelPoint, scenarioConfig]

/-- C5 (amended): a record that passes the distance test and the channel test and whose adjusted
timestamp is `time_max` or more ends the loop: the final state and the processed records are
those of the records before it, whatever follows; and every point written carries a time below
`time_max`. -/
theorem loop_stops_at_late_point [LinearOrderedField K] [FloorRing K] [Rounding K]
    (slerp : Quat K → K → Quat K → Quat K) (cfg : LoopConfig K) (s : LoopState K)
    (pre post : List (LasRecord K)) (r : LasRecord K)
    (hc : ¬ tooClose cfg r) (ha : channelAccepted cfg r)
    (hm : cfg.time_max ≤ adjustedTimestamp cfg r) :
    runLoop slerp cfg s (pre ++ r :: post) = runLoop slerp cfg s pre ∧
    processed slerp cfg s (pre ++ r :: post) = processed slerp cfg s pre ∧
    ∀ (que : List (POSSMeas K)) (rs : List (LasRecord K)),
      ∀ p ∈ (runLoop slerp cfg (LoopState.init que) rs).written,
        p.gps_time < (cfg.time_max : K) * (1 / 1000000000) := by
  refine ⟨(runLoop_append_late slerp cfg r post hc ha hm pre s).1,
    (runLoop_append_late slerp cfg r post hc ha hm pre s).2, ?_⟩
  intro que rs
  exact runLoop_written_lt slerp cfg rs (LoopState.init que) (by simp [LoopState.init])

/-- C9: a record with `|x| + |y| + |z| < min_distance` is not written; the iteration adds one to
`count[0]` and changes nothing else (the other counts, `index`, the pose queue), and the loop
goes on. -/
theorem near_point_rejected [LinearOrderedField K] [FloorRing K] [Rounding K]
    (slerp : Quat K → K → Quat K → Quat K) (cfg : LoopConfig K) (s : LoopState K)
    (r : LasRecord K) (h : |r.x| + |r.y| + |r.z| < cfg.min_distance) :
    processPoint slerp cfg s r = Flow.next { s with count0 := s.count0 + 1 } ∧
    (processPoint slerp cfg s r).state.written = s.written ∧
    (processPoint slerp cfg s r).state.count0 = s.count0 + 1 ∧
    (processPoint slerp cfg s r).state.count1 = s.count1 ∧
    (processPoint slerp cfg s r).state.count2 = s.count2 := by
  have hp : processPoint slerp cfg s r = Flow.next { s with count0 := s.count0 + 1 } := by
    unfold processPoint
    rw [if_pos (show tooClose cfg r from h)]
  rw [hp]
  exact ⟨rfl, rfl, rfl, rfl, rfl⟩

/-- C10 (code at the failing input): a single record at `(0, 0, 2)` on a channel that is not
accepted is not written, yet `index`, reported as the number of valid points, is 1. -/
theorem valid_count_other_channel :
    (runLoop blend scenarioConfig (LoopState.init [sample0, sample40])
        [otherChannelPoint]).index = 1 ∧
    (runLoop blend scenarioConfig (LoopState.init [sample0, sample40])
        [otherChannelPoint]).written = [] := by
  constructor <;>
  simp [runLoop, processPoint, tooClose, channelAccepted, otherChannelPoint, scenarioConfig,
    LoopState.init, bump, U32]

/-! ## Loading the pose file -/

theorem extract_length : ∀ (s s1 : List (Line K)) (v : K),
    extract s = some (v, s1) → s1.length ≤ s.length
  | [], _, _, h => by simp [extract] at h
  | l :: rest, s1, v, h => by
    unfold extract at h
    split at h
    · have := extract_length rest s1 v h
      simp only [List.length_cons]
      omega
    · simp only [Option.some.injEq, Prod.mk.injEq] at h
      rw [← h.2]
      simp
    · simp at h

theorem readRecord_length (s s7 : List (Line K)) (r : PoseRecord K)
    (h : readRecord s = some (r, s7)) : s7.length ≤ s.length := by
  unfold readRecord at h
  simp only [Option.bind_eq_bind, Option.pure_def, Option.bind_eq_some, Prod.exists,
    Option.some.injEq, Prod.mk.injEq] at h
  obtain ⟨v1, s1, h1, v2, s2, h2, v3, s3, h3, v4, s4, h4, v5, s5, h5, v6, s6, h6, v7, t7, h7,
    _, hs⟩ := h
  subst hs
  have e1 := extract_length _ _ _ h1
  have e2 := extract_length _ _ _ h2
  have e3 := extract_length _ _ _ h3
  have e4 := extract_length _ _ _ h4
  have e5 := extract_length _ _ _ h5
  have e6 := extract_length _ _ _ h6
  have e7 := extract_length _ _ _ h7
  omega

/-- The reading loop ends within as many iterations as the file has lines: more fuel than that
does not change its result. -/
theorem readLoop_fuel [LinearOrderedField K] [FloorRing K] [Rounding K] (cos sin : K → K) :
    ∀ (n m : Nat) (s : List (Line K)) (que : List (POSSMeas K)),
      s.length ≤ n → s.length ≤ m → readLoop cos sin n s que = readLoop cos sin m s que
  | 0, m, s, que, hn, _ => by
    have hs : s = [] := List.length_eq_zero.mp (Nat.le_zero.mp hn)
    subst hs
    cases m <;> rfl
  | n + 1, m, [], que, _, _ => by
    cases m <;> rfl
  | n + 1, 0, l :: rest, que, _, hm => by
    simp at hm
  | n + 1, m + 1, l :: rest, que, hn, hm => by
    have hn1 : rest.length ≤ n := by simpa using hn
    have hm1 : rest.length ≤ m := by simpa using hm
    simp only [readLoop]
    split
    · exact readLoop_fuel cos sin n m rest que hn1 hm1
    · split
      · exact readLoop_fuel cos sin n m rest que hn1 hm1
      · cases hr : readRecord rest with
        | none => rfl
        | some x =>
          obtain ⟨r, rest1⟩ := x
          have := readRecord_length rest rest1 r hr
          exact readLoop_fuel cos sin n m rest1 _ (by omega) (by omega)

theorem makeSample_line40 :
    makeSample cosApprox sinApprox
      (⟨5764607523034235 / 144115188075855872, 1, 0, 0, 0, 0, 0⟩ : PoseRecord ℚ) =
        sample40 := by
  have h : toU64 (Rounding.fl
      ((5764607523034235 / 144115188075855872 : ℚ) * 1000000000)) = 40000000 := by
    rw [fl_rat, roundDouble_40000000]
    simp [toU64, U64]
  simp only [makeSample, h, sample40]
  simp [angleAxis, DEG2RAD, cosApprox, sinApprox, Quat.mul, Quat.one]

/-- C4 (code at the failing inputs): from a pose file of the three records `0 0 0 0 0 0 0`,
`0.04 1 0 0 0 0 0`, `0.1 2 0 0 0 0 0`, `readPose` leaves one sample, the second record, and not
the first two records; from a file of one record it reports no failure and reads the front of
the emptied queue. -/
theorem readPose_three_records :
    readPose cosApprox sinApprox [line0, line40, line100] =
      PoseLoad.loaded [sample40] ![1, 0, 0] ∧
    readPose cosApprox sinApprox [line0] = PoseLoad.undefined := by
  constructor
  · simp [readPose, readLoop, readRecord, extract, line0, line40, line100, makeSample_line40]
    simp [sample40]
  · simp [readPose, readLoop, readRecord, extract, line0]

/-! ## The end-to-end scenario -/

/-- C8 (as stated) fails: on the pose file of the two records `0 0 0 0 0 0 0` and
`0.04 1 0 0 0 0 0`, `ConvertToLas` reads the front of an empty queue and no point is written;
and on a queue holding the first of the two samples alone the point of the scenario is not
written but counted in `count[2]`. -/
theorem scenario_two_record_file :
    ConvertToLas cosApprox sinApprox blend scenarioSettings [line0, line40]
      (some scenarioInput) true = Outcome.undefinedBehaviour ∧
    (runLoop blend scenarioConfig (LoopState.init [sample0]) [farPoint]).written = [] ∧
    (runLoop blend scenarioConfig (LoopState.init [sample0]) [farPoint]).count2 = 1 := by
  refine ⟨?_, ?_, ?_⟩
  · simp [ConvertToLas, readPose, readLoop, readRecord, extract, line0, line40]
  · simp [runLoop, processPoint, tooClose, channelAccepted, farPoint, scenarioConfig,
      LoopState.init, adjustedTimestamp, toU64, u64add, U64, poseInterpolation, advance,
      interpolate, sample0]
  · simp [runLoop, processPoint, tooClose, channelAccepted, farPoint, scenarioConfig,
      LoopState.init, adjustedTimestamp, toU64, u64add, U64, poseInterpolation, advance,
      interpolate, sample0]

/-- C8 (amended): with the pose queue holding the samples at 0 ns, position `(0, 0, 0)`, and at
40 000 000 ns, position `(1, 0, 0)`, both with identity orientation, the identity sensor
transform, channel 0 accepted, no clock offset, window `(0, 100 000 000)` and minimum distance 1,
the loop on the single record `(0, 0, 2)`, channel 0, time 20 000 000 ns, writes exactly one
point: `(0.5, 0, 2)` with time 0.02.  (`slerp` is any interpolation that gives the identity
between two identities.) -/
theorem scenario_on_loaded_queue (slerp : Quat ℚ → ℚ → Quat ℚ → Quat ℚ)
    (hslerp : slerp Quat.one (1 / 2) Quat.one = Quat.one) :
    (runLoop slerp scenarioConfig (LoopState.init [sample0, sample40]) [farPoint]).written =
      [⟨1 / 2, 0, 2, 0, 0, 2 / 100⟩] := by
  simp [runLoop, processPoint, tooClose, channelAccepted, farPoint, scenarioConfig,
    LoopState.init, bump, U32, adjustedTimestamp, toU64, u64add, U64, poseInterpolation,
    advance, interpolate, sample0, sample40, u64sub, transformPoint, Isometry3.mul,
    Isometry3.apply, Isometry3.one]
  have hs : slerp ⟨1, 0, 0, 0⟩ (1 / 2) ⟨1, 0, 0, 0⟩ = ⟨1, 0, 0, 0⟩ := hslerp
  norm_num [Quat.toRotationMatrix, Quat.one, hs]

/-! ## The sensor transform -/

theorem Quat.normSq_mul [Field K] (a b : Quat K) :
    (a.mul b).normSq = a.normSq * b.normSq := by
  simp only [Quat.mul, Quat.normSq]
  ring

theorem Quat.conjMatrix_mul [Field K] (a b : Quat K) :
    (a.mul b).conjMatrix = a.conjMatrix * b.conjMatrix := by
  ext i j
  fin_cases i <;> fin_cases j <;>
    simp [Quat.conjMatrix, Quat.mul, Matrix.mul_apply, Fin.sum_univ_three] <;> ring

theorem Quat.toRotationMatrix_of_unit [Field K] (q : Quat K) (h : q.normSq = 1) :
    q.toRotationMatrix = q.conjMatrix := by
  simp only [Quat.normSq] at h
  ext i j
  fin_cases i <;> fin_cases j <;>
    simp [Quat.conjMatrix, Quat.toRotationMatrix] <;> linear_combination -h

/-- On unit quaternions `toRotationMatrix` turns the quaternion product into the matrix
product. -/
theorem Quat.toRotationMatrix_mul [Field K] (a b : Quat K) (ha : a.normSq = 1)
    (hb : b.normSq = 1) :
    (a.mul b).toRotationMatrix = a.toRotationMatrix * b.toRotationMatrix := by
  rw [Quat.toRotationMatrix_of_unit (a.mul b) (by rw [Quat.normSq_mul, ha, hb, mul_one]),
    Quat.toRotationMatrix_of_unit a ha, Quat.toRotationMatrix_of_unit b hb,
    Quat.conjMatrix_mul]

theorem angleAxis_normSq (θ : ℝ) (ax : Axis) :
    (angleAxis Real.cos Real.sin θ ax).normSq = 1 := by
  cases ax <;> simp only [angleAxis, Quat.normSq] <;>
    nlinarith [Real.cos_sq_add_sin_sq (θ / 2)]

theorem angleAxis_toRotationMatrix (θ : ℝ) :
    (angleAxis Real.cos Real.sin θ Axis.X).toRotationMatrix = rotX Real.cos Real.sin θ ∧
    (angleAxis Real.cos Real.sin θ Axis.Y).toRotationMatrix = rotY Real.cos Real.sin θ ∧
    (angleAxis Real.cos Real.sin θ Axis.Z).toRotationMatrix = rotZ Real.cos Real.sin θ := by
  have hc : Real.cos θ = 2 * Real.cos (θ / 2) ^ 2 - 1 := by
    rw [← Real.cos_two_mul]
    congr 1
    ring
  have hs : Real.sin θ = 2 * Real.sin (θ / 2) * Real.cos (θ / 2) := by
    rw [← Real.sin_two_mul]
    congr 1
    ring
  have hp := Real.cos_sq_add_sin_sq (θ / 2)
  refine ⟨?_, ?_, ?_⟩ <;>
  · ext i j
    fin_cases i <;> fin_cases j <;>
      simp [angleAxis, Quat.toRotationMatrix, rotX, rotY, rotZ, hc, hs] <;>
      nlinarith [hp]

/-- The rotation `ConvertToLas` builds is the product of the elementary rotations about X by the
roll angle, about Y by the pitch angle and about Z by the yaw angle. -/
theorem buildLidarImuTrans_linear (c : Config ℝ) :
    (buildLidarImuTrans Real.cos Real.sin c).linear =
      rotX Real.cos Real.sin (DEG2RAD c.lidar_roll) *
        rotY Real.cos Real.sin (DEG2RAD c.lidar_pitch) *
        rotZ Real.cos Real.sin (DEG2RAD c.lidar_yaw) := by
  simp only [buildLidarImuTrans, Matrix.cons_val_zero, Matrix.cons_val_one, Matrix.head_cons,
    Matrix.cons_val_two, Matrix.tail_cons]
  rw [Quat.toRotationMatrix_mul _ _
      (by rw [Quat.normSq_mul, angleAxis_normSq, angleAxis_normSq, mul_one])
      (angleAxis_normSq _ _),
    Quat.toRotationMatrix_mul _ _ (angleAxis_normSq _ _) (angleAxis_normSq _ _),
    (angleAxis_toRotationMatrix _).1, (angleAxis_toRotationMatrix _).2.1,
    (angleAxis_toRotationMatrix _).2.2]

/-- C7 (amended): in exact real arithmetic, the sensor transform `lidarImuTrans` built in
`ConvertToLas` has rotation `Rx(roll) * Ry(pitch) * Rz(yaw)` (about X by the roll angle, about Y
by the pitch angle, about Z by the yaw angle, multiplied in that order; angles through
`DEG2RAD`) and translation the configured `(x, y, z)`. -/
theorem lidarImuTrans_rotation (c : Config ℝ) :
    (buildLidarImuTrans Real.cos Real.sin c).linear =
      rotX Real.cos Real.sin (DEG2RAD c.lidar_roll) *
        rotY Real.cos Real.sin (DEG2RAD c.lidar_pitch) *
        rotZ Real.cos Real.sin (DEG2RAD c.lidar_yaw) ∧
    (buildLidarImuTrans Real.cos Real.sin c).translation =
      ![c.lidar_x, c.lidar_y, c.lidar_z] :=
  ⟨buildLidarImuTrans_linear c, rfl⟩

/-- C7 (as stated) fails: for yaw 0, pitch 0 and roll 90 degrees the rotation built is not
`Rz(roll) * Ry(pitch) * Rx(yaw)`. -/
theorem lidarImuTrans_not_zyx :
    (buildLidarImuTrans Real.cos Real.sin ⟨[], 0, 0, 0, 90, 0, 0, 0, 0, 0, 0⟩).linear ≠
      rotZ Real.cos Real.sin (DEG2RAD 90) * rotY Real.cos Real.sin (DEG2RAD 0) *
        rotX Real.cos Real.sin (DEG2RAD 0) := by
  rw [buildLidarImuTrans_linear]
  intro h
  have h12 := congrFun (congrFun h 1) 2
  simp [rotX, rotY, rotZ, DEG2RAD, Matrix.mul_apply, Fin.sum_univ_three] at h12
  have hpos : 0 < Real.sin (90 * (17453293 / 1000000000)) :=
    Real.sin_pos_of_pos_of_lt_pi (by norm_num) (by linarith [Real.pi_gt_three])
  linarith

/-! ## Instances on concrete data -/

/-- C1 at the queue of three samples (0 ns, 40 ms, 100 ms) and the query 20 ms. -/
theorem poseInterpolation_adjacent_witness :
    (([] : List (POSSMeas ℚ)) ++ sample0 :: sample40 :: [sample100]).Pairwise
        (fun a b : POSSMeas ℚ => a.timestamp ≤ b.timestamp) ∧
      sample40.timestamp - sample0.timestamp < 50000000 ∧
      sample0.timestamp ≤ 20000000 ∧ 20000000 < sample40.timestamp ∧
      (poseInterpolation blend 20000000 ([] ++ sample0 :: sample40 :: [sample100])).1 =
        some (Pose.mk (sample0.p +
                ((((20000000 : Nat) : ℚ) - (sample0.timestamp : ℚ)) /
                  ((sample40.timestamp : ℚ) - (sample0.timestamp : ℚ))) •
                (sample40.p - sample0.p))
              (blend sample0.q
                ((((20000000 : Nat) : ℚ) - (sample0.timestamp : ℚ)) /
                  ((sample40.timestamp : ℚ) - (sample0.timestamp : ℚ)))
                sample40.q)) :=
  ⟨by decide, by decide, by decide, by decide,
    poseInterpolation_adjacent blend [] [sample100] sample0 sample40 20000000
      (by decide) (by decide) (by decide) (by decide)⟩

/-- C2 at the queue of three samples (0 ns, 40 ms, 100 ms): the query 50 ms falls in the bracket
from 40 ms to 100 ms, which is 60 ms wide. -/
theorem poseInterpolation_none_witness :
    [sample0, sample40, sample100].Pairwise
        (fun a b : POSSMeas ℚ => a.timestamp ≤ b.timestamp) ∧
      (∀ x ∈ [sample0, sample40, sample100], x.timestamp < U64) ∧
      (poseInterpolation blend 50000000 [sample0, sample40, sample100]).1 = none :=
  ⟨by decide, by decide,
    (poseInterpolation_none blend [sample0, sample40, sample100] 50000000
      (by decide) (by decide)).2.2.2 [sample0] sample40 sample100 [] rfl
      (by decide) (by decide) (by decide)⟩

/-- C6 at the queue of three samples and the queries 10 ms, then 50 ms. -/
theorem poseInterpolation_sweep_witness :
    10000000 ≤ 50000000 ∧
      poseInterpolation blend 50000000
          (poseInterpolation blend 10000000 [sample0, sample40, sample100]).2 =
        poseInterpolation blend 50000000 [sample0, sample40, sample100] :=
  ⟨by decide,
    (poseInterpolation_sweep blend [sample0, sample40, sample100] 10000000 50000000
      (by decide)).1⟩

/-- C5 (amended) at the stream `farPoint`, `farLatePoint`, `farPoint`: the loop is left at the
second record and the third is not processed. -/
theorem loop_stops_at_late_point_witness :
    ¬ tooClose scenarioConfig farLatePoint ∧ channelAccepted scenarioConfig farLatePoint ∧
      scenarioConfig.time_max ≤ adjustedTimestamp scenarioConfig farLatePoint ∧
      runLoop blend scenarioConfig (LoopState.init [sample0, sample40])
          ([farPoint] ++ farLatePoint :: [farPoint]) =
        runLoop blend scenarioConfig (LoopState.init [sample0, sample40]) [farPoint] :=
  have hc : ¬ tooClose scenarioConfig farLatePoint := by
    norm_num [tooClose, farLatePoint, scenarioConfig]
  have ha : channelAccepted scenarioConfig farLatePoint := by
    norm_num [channelAccepted, farLatePoint, scenarioConfig]
  have hm : scenarioConfig.time_max ≤ adjustedTimestamp scenarioConfig farLatePoint := by
    norm_num [adjustedTimestamp, farLatePoint, scenarioConfig, toU64, u64add, U64]
  ⟨hc, ha, hm,
    (loop_stops_at_late_point blend scenarioConfig (LoopState.init [sample0, sample40])
      [farPoint] [farPoint] farLatePoint hc ha hm).1⟩

/-- C9 at a record at the origin, with minimum distance 1. -/
theorem near_point_rejected_witness :
    |nearOtherChannelPoint.x| + |nearOtherChannelPoint.y| + |nearOtherChannelPoint.z| <
        scenarioConfig.min_distance ∧
      processPoint blend scenarioConfig (LoopState.init [sample0, sample40])
          nearOtherChannelPoint =
        Flow.next { LoopState.init [sample0, sample40] with
          count0 := (LoopState.init [sample0, sample40]).count0 + 1 } :=
  have h : |nearOtherChannelPoint.x| + |nearOtherChannelPoint.y| + |nearOtherChannelPoint.z| <
      scenarioConfig.min_distance := by
    norm_num [nearOtherChannelPoint, scenarioConfig]
  ⟨h, (near_point_rejected blend scenarioConfig (LoopState.init [sample0, sample40])
    nearOtherChannelPoint h).1⟩

/-- C8 (amended) with the linear blend as `slerp`. -/
theorem scenario_on_loaded_queue_witness :
    blend (Quat.one : Quat ℚ) (1 / 2) Quat.one = Quat.one ∧
      (runLoop blend scenarioConfig (LoopState.init [sample0, sample40]) [farPoint]).written =
        [⟨1 / 2, 0, 2, 0, 0, 2 / 100⟩] :=
  have h : blend (Quat.one : Quat ℚ) (1 / 2) Quat.one = Quat.one := by
    norm_num [blend, Quat.one]
  ⟨h, scenario_on_loaded_queue blend h⟩

/-- C5 (as stated) fails: the first record of the stream `nearLatePoint`, `farPoint` has an
adjusted timestamp past `time_max`, yet the loop goes on: the first record is counted in
`count[0]` and the second is written. -/
theorem late_near_point_goes_on :
    scenarioConfig.time_max ≤ adjustedTimestamp scenarioConfig nearLatePoint ∧
    (runLoop blend scenarioConfig (LoopState.init [sample0, sample40])
        [nearLatePoint, farPoint]).count0 = 1 ∧
    (runLoop blend scenarioConfig (LoopState.init [sample0, sample40])
        [nearLatePoint, farPoint]).written = [⟨1 / 2, 0, 2, 0, 0, 2 / 100⟩] := by
  refine ⟨?_, ?_, ?_⟩
  · norm_num [adjustedTimestamp, nearLatePoint, scenarioConfig, toU64, u64add, U64]
  · norm_num [runLoop, processPoint, tooClose, channelAccepted, farPoint, nearLatePoint,
      scenarioConfig, LoopState.init, bump, U32, adjustedTimestamp, toU64, u64add, U64,
      poseInterpolation, advance, interpolate, sample0, sample40, u64sub]
  · simp [runLoop, processPoint, tooClose, channelAccepted, farPoint, nearLatePoint,
      scenarioConfig, LoopState.init, bump, U32, adjustedTimestamp, toU64, u64add, U64,
      poseInterpolation, advance, interpolate, sample0, sample40, u64sub, transformPoint,
      Isometry3.mul, Isometry3.apply, Isometry3.one, Quat.toRotationMatrix, Quat.one, blend]
    norm_num

/-! ## The queue after a query -/

/-- The scan only pops from the front. -/
theorem advance_suffix (q : Nat) : ∀ que : List (POSSMeas K), advance q que <:+ que
  | [] => List.suffix_refl _
  | [_] => List.suffix_refl _
  | a :: b :: rest => by
    rw [advance_cons_cons]
    split
    · exact List.suffix_refl _
    · exact (advance_suffix q (b :: rest)).trans (List.suffix_cons a (b :: rest))

/-- The scan never pops the last sample. -/
theorem advance_eq_nil (q : Nat) : ∀ que : List (POSSMeas K), advance q que = [] ↔ que = []
  | [] => by simp [advance_nil]
  | [_] => by simp [advance_single]
  | a :: b :: rest => by
    rw [advance_cons_cons]
    split
    · simp
    · simpa using advance_eq_nil q (b :: rest)

/-- When the scan leaves two samples or more, the second one is later than the query. -/
theorem advance_bracket (q : Nat) :
    ∀ (que : List (POSSMeas K)) (a b : POSSMeas K) (rest : List (POSSMeas K)),
      advance q que = a :: b :: rest → q < b.timestamp
  | [], _, _, _, h => by simp [advance_nil] at h
  | [_], _, _, _, h => by simp [advance_single] at h
  | x :: y :: r, a, b, rest, h => by
    rw [advance_cons_cons] at h
    by_cases hy : y.timestamp > q
    · rw [if_pos hy] at h
      simp only [List.cons.injEq] at h
      rw [← h.2.1]
      exact hy
    · rw [if_neg hy] at h
      exact advance_bracket q (y :: r) a b rest h

/-- C18: the queue left by `poseInterpolation q` is a suffix of the queue it was given (samples
are only removed from the front), and it is empty only when the given queue was empty: the call
never removes the last remaining sample. -/
theorem poseInterpolation_queue [LinearOrderedField K] (slerp : Quat K → K → Quat K → Quat K)
    (que : List (POSSMeas K)) (q : Nat) :
    (poseInterpolation slerp q que).2 <:+ que ∧
    ((poseInterpolation slerp q que).2 = [] ↔ que = []) :=
  ⟨advance_suffix q que, advance_eq_nil q que⟩

/-- C15: whenever `poseInterpolation q` returns a pose on a queue of `uint64_t` timestamps, the
queue it leaves starts with two samples `a`, `b` with `a.timestamp ≤ q < b.timestamp`; the two
unsigned subtractions do not wrap, the gap is positive, the interpolation parameter `t` lies in
`[0, 1)` and the pose is the interpolation at `t`. -/
theorem poseInterpolation_some_bracket [LinearOrderedField K]
    (slerp : Quat K → K → Quat K → Quat K) (que : List (POSSMeas K)) (q : Nat) (pose : Pose K)
    (hrange : ∀ x ∈ que, x.timestamp < U64)
    (h : (poseInterpolation slerp q que).1 = some pose) :
    ∃ a b rest, (poseInterpolation slerp q que).2 = a :: b :: rest ∧
      a.timestamp ≤ q ∧ q < b.timestamp ∧
      u64sub b.timestamp a.timestamp = b.timestamp - a.timestamp ∧
      u64sub q a.timestamp = q - a.timestamp ∧
      0 < b.timestamp - a.timestamp ∧
      (0 : K) ≤ ((u64sub q a.timestamp : Nat) : K) * (1 / 1000000000) /
          (((u64sub b.timestamp a.timestamp : Nat) : K) * (1 / 1000000000)) ∧
      ((u64sub q a.timestamp : Nat) : K) * (1 / 1000000000) /
          (((u64sub b.timestamp a.timestamp : Nat) : K) * (1 / 1000000000)) < 1 ∧
      pose = ⟨a.p + (((u64sub q a.timestamp : Nat) : K) * (1 / 1000000000) /
                (((u64sub b.timestamp a.timestamp : Nat) : K) * (1 / 1000000000))) •
                (b.p - a.p),
              slerp a.q (((u64sub q a.timestamp : Nat) : K) * (1 / 1000000000) /
                (((u64sub b.timestamp a.timestamp : Nat) : K) * (1 / 1000000000))) b.q⟩ := by
  simp only [poseInterpolation] at h ⊢
  cases hq : advance q que with
  | nil => rw [hq] at h; simp [interpolate] at h
  | cons a tl =>
    cases tl with
    | nil => rw [hq] at h; simp [interpolate] at h
    | cons b rest =>
      rw [hq] at h
      have hhi : q < b.timestamp := advance_bracket q que a b rest hq
      have hbmem : b ∈ que := (advance_suffix q que).subset (by rw [hq]; simp)
      have hb : b.timestamp < U64 := hrange b hbmem
      simp only [interpolate] at h
      by_cases hlo : a.timestamp ≤ q
      · rw [if_pos hlo] at h
        have h1 : u64sub b.timestamp a.timestamp = b.timestamp - a.timestamp :=
          u64sub_of_le (by omega) (by omega)
        have h2 : u64sub q a.timestamp = q - a.timestamp :=
          u64sub_of_le hlo (by omega)
        by_cases hd : ((u64sub b.timestamp a.timestamp : Nat) : K) * (1 / 1000000000) < 5 / 100
        · rw [if_pos hd] at h
          simp only [Option.some.injEq] at h
          have hgap : 0 < b.timestamp - a.timestamp := by omega
          have hden : (0 : K) < ((b.timestamp - a.timestamp : Nat) : K) * (1 / 1000000000) := by
            have : (0 : K) < ((b.timestamp - a.timestamp : Nat) : K) := by exact_mod_cast hgap
            positivity
          have hnum : (0 : K) ≤ ((q - a.timestamp : Nat) : K) * (1 / 1000000000) := by
            positivity
          have hlt : ((q - a.timestamp : Nat) : K) * (1 / 1000000000) <
              ((b.timestamp - a.timestamp : Nat) : K) * (1 / 1000000000) := by
            have : ((q - a.timestamp : Nat) : K) < ((b.timestamp - a.timestamp : Nat) : K) := by
              exact_mod_cast (by omega : q - a.timestamp < b.timestamp - a.timestamp)
            have h9 : (0 : K) < 1 / 1000000000 := by norm_num
            exact mul_lt_mul_of_pos_right this h9
          refine ⟨a, b, rest, rfl, hlo, hhi, h1, h2, hgap, ?_, ?_, h.symm⟩
          · rw [h1, h2]
            exact div_nonneg hnum hden.le
          · rw [h1, h2]
            exact (div_lt_one hden).mpr hlt
        · rw [if_neg hd] at h
          cases h
      · rw [if_neg hlo] at h
        cases h

/-! ## The point transform -/

/-- C17: `transformPoint` returns `Rb * (Rs * v + ts) + pb`, where `Rb` is the rotation matrix of
the pose quaternion, `pb` the pose position and `(Rs, ts)` the sensor transform; no offset is
subtracted; with the identity sensor transform it returns `Rb * v + pb`. -/
theorem transformPoint_eq [Field K] (lidarImuTrans : Isometry3 K) (v : Fin 3 → K)
    (pose : Pose K) :
    transformPoint lidarImuTrans v pose =
      pose.q.toRotationMatrix.mulVec (lidarImuTrans.linear.mulVec v + lidarImuTrans.translation)
        + pose.p ∧
    transformPoint Isometry3.one v pose = pose.q.toRotationMatrix.mulVec v + pose.p := by
  constructor
  · simp only [transformPoint, Isometry3.mul, Isometry3.apply, Matrix.mulVec_add,
      Matrix.mulVec_mulVec]
    abel
  · simp only [transformPoint, Isometry3.mul, Isometry3.apply, Isometry3.one, mul_one,
      Matrix.mulVec_zero, zero_add]

/-! ## Loading, the offset and the timestamp conversion -/

/-- C11 (code at the failing inputs): on a pose file without usable record (an empty file, or a
file of one comment line) and on a pose file of one record, `ConvertToLas` does not return before
the point processing with a failure: it goes on to read the front sample of the empty queue. -/
theorem convert_without_samples :
    ConvertToLas cosApprox sinApprox blend scenarioSettings [] (some scenarioInput) true =
      Outcome.undefinedBehaviour ∧
    ConvertToLas cosApprox sinApprox blend scenarioSettings [commentLine] (some scenarioInput)
      true = Outcome.undefinedBehaviour ∧
    readPose cosApprox sinApprox [commentLine] = PoseLoad.invalid ∧
    ConvertToLas cosApprox sinApprox blend scenarioSettings [line0] (some scenarioInput) true =
      Outcome.undefinedBehaviour := by
  refine ⟨?_, ?_, ?_, ?_⟩
  · simp [ConvertToLas, readPose, readLoop]
  · simp [ConvertToLas, readPose, readLoop, commentLine]
  · simp [readPose, readLoop, commentLine]
  · simp [ConvertToLas, readPose, readLoop, readRecord, extract, line0]

/-- The cast to `uint64_t` of a value in range is its floor. -/
theorem toU64_of_lt [LinearOrderedField K] [FloorRing K] (v : K) (h : ⌊v⌋₊ < U64) :
    toU64 v = ⌊v⌋₊ := by
  unfold toU64
  exact Nat.mod_eq_of_lt h

/-- What the error bound of the rounding says about a value that is not negative. -/
theorem fl_bounds [LinearOrderedField K] [Rounding K]
    (herr : ∀ x : K, 0 ≤ x → |Rounding.fl x - x| ≤ x / 2 ^ 53) (x : K) (hx : 0 ≤ x) :
    x * (1 - 1 / 2 ^ 53) ≤ Rounding.fl x ∧ Rounding.fl x ≤ x * (1 + 1 / 2 ^ 53) := by
  have h := abs_le.mp (herr x hx)
  constructor
  · linarith [h.1]
  · linarith [h.2]

theorem roundDouble_seven_tenths :
    roundDouble (6769984589841923 / 9671406556917033397649408 * 1000000000) =
      6305039478318694 / 9007199254740992 := by
  rw [roundDouble_down (6769984589841923 / 9671406556917033397649408 * 1000000000) (-1)
    6305039478318694 (by norm_num) (by norm_num) (by norm_num) (by norm_num)]
  norm_num

theorem roundDouble_435 :
    roundDouble (2448832297382707 / 562949953421312 * 1000000000) = 4350000000 := by
  rw [roundDouble_up (2448832297382707 / 562949953421312 * 1000000000) 32 4561305599999999
    (by norm_num) (by norm_num) (by norm_num) (by norm_num)]
  norm_num

/-- C14 (amended): for a pose record with non-negative timestamp `s` (seconds, the `double` read
from the file), the stored timestamp is the `double` product `s * 1e9` truncated toward zero: the
largest integer not above the computed product, not the nearest integer.  The computed product
being `s * 1e9` rounded to `double`, the stored value is at most `s * 1e9 * (1 + 2 ^ (-53))` and
more than `s * 1e9 * (1 - 2 ^ (-53)) - 1`. -/
theorem stored_timestamp_truncated [LinearOrderedField K] [FloorRing K] [Rounding K]
    (cos sin : K → K) (r : PoseRecord K) (h0 : 0 ≤ r.timestamp)
    (herr : ∀ x : K, 0 ≤ x → |Rounding.fl x - x| ≤ x / 2 ^ 53)
    (hmax : Rounding.fl (r.timestamp * 1000000000) < (U64 : K)) :
    (makeSample cos sin r).timestamp = ⌊Rounding.fl (r.timestamp * 1000000000)⌋₊ ∧
    ((makeSample cos sin r).timestamp : K) ≤ Rounding.fl (r.timestamp * 1000000000) ∧
    Rounding.fl (r.timestamp * 1000000000) < ((makeSample cos sin r).timestamp : K) + 1 ∧
    ((makeSample cos sin r).timestamp : K) ≤ r.timestamp * 1000000000 * (1 + 1 / 2 ^ 53) ∧
    r.timestamp * 1000000000 * (1 - 1 / 2 ^ 53) - 1 < ((makeSample cos sin r).timestamp : K) := by
  have hnn : (0 : K) ≤ r.timestamp * 1000000000 := by positivity
  obtain ⟨hb1, hb2⟩ := fl_bounds herr _ hnn
  have hu : (0 : K) ≤ 1 - 1 / 2 ^ 53 := by norm_num
  have hfnn : (0 : K) ≤ Rounding.fl (r.timestamp * 1000000000) :=
    le_trans (mul_nonneg hnn hu) hb1
  have hfl : ⌊Rounding.fl (r.timestamp * 1000000000)⌋₊ < U64 := (Nat.floor_lt hfnn).mpr hmax
  have ht : (makeSample cos sin r).timestamp = ⌊Rounding.fl (r.timestamp * 1000000000)⌋₊ := by
    simp only [makeSample]
    exact toU64_of_lt _ hfl
  have hle := Nat.floor_le hfnn
  have hlt := Nat.lt_floor_add_one (Rounding.fl (r.timestamp * 1000000000))
  rw [ht]
  refine ⟨rfl, hle, hlt, ?_, ?_⟩
  · linarith
  · linarith

/-- C14 (amended) at the record whose timestamp is the `double` nearest to 4.35: the product
rounds to 4350000000, which is stored, while the exact product truncates to 4349999999. -/
theorem stored_timestamp_truncated_witness :
    (0 : ℚ) ≤ double435Record.timestamp ∧
      (∀ x : ℚ, 0 ≤ x → |Rounding.fl x - x| ≤ x / 2 ^ 53) ∧
      Rounding.fl (double435Record.timestamp * 1000000000) < (U64 : ℚ) ∧
      (makeSample cosApprox sinApprox double435Record).timestamp =
        ⌊Rounding.fl (double435Record.timestamp * 1000000000)⌋₊ ∧
      ⌊Rounding.fl (double435Record.timestamp * 1000000000)⌋₊ = 4350000000 ∧
      ⌊double435Record.timestamp * 1000000000⌋₊ = 4349999999 :=
  have h0 : (0 : ℚ) ≤ double435Record.timestamp := by norm_num [double435Record]
  have hfl : Rounding.fl (double435Record.timestamp * 1000000000) = 4350000000 := by
    simp only [double435Record, fl_rat]
    exact roundDouble_435
  have hmax : Rounding.fl (double435Record.timestamp * 1000000000) < (U64 : ℚ) := by
    rw [hfl]
    norm_num [U64]
  have hval : ⌊Rounding.fl (double435Record.timestamp * 1000000000)⌋₊ = 4350000000 := by
    rw [hfl]
    exact Nat.floor_natCast 4350000000
  have hexact : ⌊double435Record.timestamp * 1000000000⌋₊ = 4349999999 := by
    rw [Nat.floor_eq_iff (by norm_num [double435Record])]
    norm_num [double435Record]
  ⟨h0, roundDouble_error, hmax,
    (stored_timestamp_truncated cosApprox sinApprox double435Record h0 roundDouble_error
      hmax).1, hval, hexact⟩

/-- C14 (as stated) fails: for the timestamp 0.0000000007 s (as the `double` read) the stored
value is 0, while `s * 1e9`, about 0.7, rounded to the nearest integer is 1. -/
theorem stored_timestamp_not_rounded :
    (makeSample cosApprox sinApprox subNanoRecord).timestamp = 0 ∧
    round (subNanoRecord.timestamp * 1000000000) = 1 := by
  constructor
  · have hf : ⌊(6305039478318694 / 9007199254740992 : ℚ)⌋₊ = 0 :=
      Nat.floor_eq_zero.mpr (by norm_num)
    simp only [makeSample, subNanoRecord, toU64, fl_rat, roundDouble_seven_tenths, hf]
    rfl
  · simp only [subNanoRecord]
    norm_num [round_eq, Int.floor_eq_iff]

/-! ## Written points and their records -/

/-- An iteration only pops the pose queue from the front. -/
theorem processPoint_next_queue [LinearOrderedField K] [FloorRing K] [Rounding K]
    (slerp : Quat K → K → Quat K → Quat K) (cfg : LoopConfig K) (s s1 : LoopState K)
    (r : LasRecord K) (h : processPoint slerp cfg s r = Flow.next s1) :
    s1.poseQue <:+ s.poseQue := by
  unfold processPoint at h
  by_cases hc : tooClose cfg r
  · rw [if_pos hc] at h
    cases h
    exact List.suffix_refl _
  · rw [if_neg hc] at h
    by_cases ha : channelAccepted cfg r
    · rw [if_pos ha] at h
      by_cases hw : adjustedTimestamp cfg r ≤ cfg.time_min ∨
          adjustedTimestamp cfg r ≥ cfg.time_max
      · simp only [if_pos hw] at h
        by_cases hm : adjustedTimestamp cfg r ≥ cfg.time_max
        · rw [if_pos hm] at h
          cases h
        · rw [if_neg hm] at h
          cases h
          exact List.suffix_refl _
      · simp only [if_neg hw] at h
        have hsuf : (poseInterpolation slerp (adjustedTimestamp cfg r) s.poseQue).2 <:+
            s.poseQue := advance_suffix _ _
        cases hp : poseInterpolation slerp (adjustedTimestamp cfg r) s.poseQue with
        | mk pose que =>
          rw [hp] at h hsuf
          cases pose with
          | none =>
            cases h
            exact hsuf
          | some pose =>
            cases h
            rw [(bump_counts cfg _).2.2.2]
            exact hsuf
    · rw [if_neg ha] at h
      cases h
      rw [(bump_counts cfg s).2.2.2]

/-- The points the loop adds to the output are, in order, the transforms of a subsequence of the
records, each of which passed the four tests. -/
theorem runLoop_written_from [LinearOrderedField K] [FloorRing K] [Rounding K]
    (slerp : Quat K → K → Quat K → Quat K) (cfg : LoopConfig K) (que0 : List (POSSMeas K)) :
    ∀ (rs : List (LasRecord K)) (s : LoopState K), s.poseQue <:+ que0 →
      ∃ ws pts, ws.Sublist rs ∧ (runLoop slerp cfg s rs).written = s.written ++ pts ∧
        List.Forall₂ (WrittenFrom slerp cfg que0) ws pts
  | [], s, _ => ⟨[], [], List.Sublist.slnil, by simp [runLoop], List.Forall₂.nil⟩
  | r :: rs, s, hs => by
    rw [runLoop_cons]
    cases hp : processPoint slerp cfg s r with
    | next s1 =>
      have hq1 : s1.poseQue <:+ que0 := (processPoint_next_queue slerp cfg s s1 r hp).trans hs
      obtain ⟨ws, pts, hsub, hwr, hall⟩ := runLoop_written_from slerp cfg que0 rs s1 hq1
      rcases processPoint_next_written slerp cfg s s1 r hp with
        hw | ⟨hc, ha, hlo, hhi, pose, hpose, hw⟩
      · refine ⟨ws, pts, List.Sublist.cons r hsub, ?_, hall⟩
        simp only [hwr, hw]
      · refine ⟨r :: ws, outputPoint cfg r pose :: pts, List.Sublist.cons₂ r hsub, ?_,
          List.Forall₂.cons ⟨hc, ha, hlo, hhi, s.poseQue, pose, hs, hpose, rfl⟩ hall⟩
        simp only [hwr, hw, outputPoint, List.append_assoc, List.singleton_append]
    | stop s1 =>
      exact ⟨[], [], List.nil_sublist _, by simp [(processPoint_stop slerp cfg s s1 r hp).1],
        List.Forall₂.nil⟩

/-- C16: the points written by the loop are, in the order of the output, the transforms of a
subsequence of the input records (same relative order as in the input), and each of these records
passed the four tests: `|x| + |y| + |z| ≥ min_distance`, channel in the accepted set,
`time_min < adjustedTimestamp < time_max`, and `poseInterpolation (adjustedTimestamp)` returned a
pose, on the queue of that moment, which is what is left of the initial queue. -/
theorem written_points_passed [LinearOrderedField K] [FloorRing K] [Rounding K]
    (slerp : Quat K → K → Quat K → Quat K) (cfg : LoopConfig K) (que : List (POSSMeas K))
    (rs : List (LasRecord K)) :
    ∃ ws, ws.Sublist rs ∧
      List.Forall₂
        (fun r p =>
          ¬ (|r.x| + |r.y| + |r.z| < cfg.min_distance) ∧
          ((r.point_source_ID % 256 : Nat) : Int) ∈ cfg.id_range ∧
          cfg.time_min < adjustedTimestamp cfg r ∧ adjustedTimestamp cfg r < cfg.time_max ∧
          ∃ que1 pose, que1 <:+ que ∧
            (poseInterpolation slerp (adjustedTimestamp cfg r) que1).1 = some pose ∧
            p = outputPoint cfg r pose)
        ws (runLoop slerp cfg (LoopState.init que) rs).written := by
  obtain ⟨ws, pts, hsub, hwr, hall⟩ :=
    runLoop_written_from slerp cfg que rs (LoopState.init que) (List.suffix_refl _)
  refine ⟨ws, hsub, ?_⟩
  have : (runLoop slerp cfg (LoopState.init que) rs).written = pts := by
    rw [hwr]
    simp [LoopState.init]
  rw [this]
  exact hall

/-! ## Progress reports -/

theorem bump_index [LinearOrderedField K] [FloorRing K] [Rounding K] (cfg : LoopConfig K)
    (s : LoopState K) :
    (bump cfg s).index = (s.index + 1) % U32 ∧
    (bump cfg s).progress =
      if (s.index + 1) % U32 % 10000 = 0 then
        s.progress ++
          [⌊Rounding.fl
            (Rounding.fl ((((s.index + 1) % U32 : Nat) : K) / (cfg.points_num : K)) * 100)⌋]
      else s.progress := by
  simp only [bump]
  split <;> exact ⟨rfl, rfl⟩

/-- An iteration that goes on leaves `index` and the reports alone or does what `bump` does to
them. -/
theorem processPoint_next_index [LinearOrderedField K] [FloorRing K] [Rounding K]
    (slerp : Quat K → K → Quat K → Quat K) (cfg : LoopConfig K) (s s1 : LoopState K)
    (r : LasRecord K) (h : processPoint slerp cfg s r = Flow.next s1) :
    (s1.index = s.index ∧ s1.progress = s.progress) ∨
      (s1.index = (bump cfg s).index ∧ s1.progress = (bump cfg s).progress) := by
  unfold processPoint at h
  by_cases hc : tooClose cfg r
  · rw [if_pos hc] at h
    cases h
    exact Or.inl ⟨rfl, rfl⟩
  · rw [if_neg hc] at h
    by_cases ha : channelAccepted cfg r
    · rw [if_pos ha] at h
      by_cases hw : adjustedTimestamp cfg r ≤ cfg.time_min ∨
          adjustedTimestamp cfg r ≥ cfg.time_max
      · simp only [if_pos hw] at h
        by_cases hm : adjustedTimestamp cfg r ≥ cfg.time_max
        · rw [if_pos hm] at h
          cases h
        · rw [if_neg hm] at h
          cases h
          exact Or.inl ⟨rfl, rfl⟩
      · simp only [if_neg hw] at h
        cases hp : poseInterpolation slerp (adjustedTimestamp cfg r) s.poseQue with
        | mk pose que =>
          rw [hp] at h
          cases pose with
          | none =>
            cases h
            exact Or.inl ⟨rfl, rfl⟩
          | some pose =>
            cases h
            refine Or.inr ⟨?_, ?_⟩
            · rw [(bump_index cfg _).1, (bump_index cfg s).1]
            · rw [(bump_index cfg _).2, (bump_index cfg s).2]
    · rw [if_neg ha] at h
      cases h
      exact Or.inr ⟨rfl, rfl⟩

/-- While `index` cannot pass the announced number of records, the reports made so far are the
values for the multiples of 10000 up to `index`, in order. -/
theorem runLoop_progress [LinearOrderedField K] [FloorRing K] [Rounding K]
    (slerp : Quat K → K → Quat K → Quat K) (cfg : LoopConfig K) (h32 : cfg.points_num < U32) :
    ∀ (rs : List (LasRecord K)) (s : LoopState K),
      s.index + rs.length ≤ cfg.points_num →
      s.progress = (List.range (s.index / 10000)).map (progressValue cfg) →
      (runLoop slerp cfg s rs).index ≤ cfg.points_num ∧
      (runLoop slerp cfg s rs).progress =
        (List.range ((runLoop slerp cfg s rs).index / 10000)).map (progressValue cfg)
  | [], s, hi, hp => ⟨by simpa [runLoop] using hi, by simpa [runLoop] using hp⟩
  | r :: rs, s, hi, hp => by
    rw [runLoop_cons]
    simp only [List.length_cons] at hi
    cases hpp : processPoint slerp cfg s r with
    | next s1 =>
      refine runLoop_progress slerp cfg h32 rs s1 ?_ ?_
      · rcases processPoint_next_index slerp cfg s s1 r hpp with h1 | h1
        · rw [h1.1]
          omega
        · rw [h1.1, (bump_index cfg s).1]
          have : (s.index + 1) % U32 = s.index + 1 := Nat.mod_eq_of_lt (by omega)
          omega
      · rcases processPoint_next_index slerp cfg s s1 r hpp with h1 | h1
        · rw [h1.1, h1.2]
          exact hp
        · have hmod : (s.index + 1) % U32 = s.index + 1 := Nat.mod_eq_of_lt (by omega)
          rw [h1.1, h1.2, (bump_index cfg s).1, (bump_index cfg s).2, hmod]
          by_cases hk : (s.index + 1) % 10000 = 0
          · rw [if_pos hk]
            have hdiv : (s.index + 1) / 10000 = s.index / 10000 + 1 := by omega
            have hmul : 10000 * (s.index / 10000 + 1) = s.index + 1 := by omega
            rw [hdiv, List.range_succ, List.map_append, ← hp]
            simp only [List.map_cons, List.map_nil, progressValue, hmul]
          · rw [if_neg hk]
            have hdiv : (s.index + 1) / 10000 = s.index / 10000 := by omega
            rw [hdiv]
            exact hp
    | stop s1 =>
      rw [(processPoint_stop slerp cfg s s1 r hpp).1]
      exact ⟨show s.index ≤ cfg.points_num by omega, hp⟩

/-- The truncated `double` percentage of `i` out of `N` 32-bit records, against the floor of the
exact percentage: equal or one less, and between 0 and 100. -/
theorem percent_near [LinearOrderedField K] [FloorRing K] [Rounding K]
    (herr : ∀ x : K, 0 ≤ x → |Rounding.fl x - x| ≤ x / 2 ^ 53) (i N : Nat) (hi : i ≤ N)
    (hN0 : 0 < N) (hN : N < U32) :
    (⌊Rounding.fl (Rounding.fl ((i : K) / (N : K)) * 100)⌋ = ⌊(i : K) / (N : K) * 100⌋ ∨
      ⌊Rounding.fl (Rounding.fl ((i : K) / (N : K)) * 100)⌋ = ⌊(i : K) / (N : K) * 100⌋ - 1) ∧
    0 ≤ ⌊Rounding.fl (Rounding.fl ((i : K) / (N : K)) * 100)⌋ ∧
    ⌊Rounding.fl (Rounding.fl ((i : K) / (N : K)) * 100)⌋ ≤ 100 := by
  have hNK : (0 : K) < (N : K) := by exact_mod_cast hN0
  have hq0 : (0 : K) ≤ (i : K) / (N : K) := by positivity
  have hq1 : (i : K) / (N : K) ≤ 1 := (div_le_one hNK).mpr (by exact_mod_cast hi)
  obtain ⟨ha1, ha2⟩ := fl_bounds herr _ hq0
  generalize hq : (i : K) / (N : K) = q at *
  generalize Rounding.fl q = a at *
  have hu : (0 : K) ≤ 1 - 1 / 2 ^ 53 := by norm_num
  have ha0 : 0 ≤ a := le_trans (mul_nonneg hq0 hu) ha1
  have ha100 : 0 ≤ a * 100 := by positivity
  obtain ⟨hb1, hb2⟩ := fl_bounds herr _ ha100
  generalize Rounding.fl (a * 100) = b at *
  have hb0 : 0 ≤ b := le_trans (mul_nonneg ha100 hu) hb1
  have hF1 : ((⌊q * 100⌋ : Int) : K) ≤ q * 100 := Int.floor_le _
  have hF2 : q * 100 < ((⌊q * 100⌋ : Int) : K) + 1 := Int.lt_floor_add_one _
  have hF0 : 0 ≤ ⌊q * 100⌋ := Int.floor_nonneg.mpr (by positivity)
  generalize ⌊q * 100⌋ = F at *
  have hF0K : (0 : K) ≤ (F : K) := by exact_mod_cast hF0
  have hF100K : (F : K) ≤ 100 := by linarith
  have hF100 : F ≤ 100 := by exact_mod_cast hF100K
  -- the exact percentage stays `1 / N` below the next integer
  have hgap : q * 100 ≤ (F : K) + 1 - 1 / (N : K) := by
    have h1 : (((100 * (i : Int) : Int)) : K) < (((F + 1) * (N : Int) : Int) : K) := by
      push_cast
      have h := hF2
      rw [← hq, div_mul_eq_mul_div, div_lt_iff₀ hNK] at h
      linarith
    have h2 : 100 * (i : Int) + 1 ≤ (F + 1) * (N : Int) := Int.cast_lt.mp h1
    have h3 : (((100 * (i : Int) + 1 : Int)) : K) ≤ (((F + 1) * (N : Int) : Int) : K) :=
      Int.cast_le.mpr h2
    push_cast at h3
    rw [← hq, div_mul_eq_mul_div, div_le_iff₀ hNK]
    have h4 : ((F : K) + 1 - 1 / (N : K)) * (N : K) = ((F : K) + 1) * (N : K) - 1 := by
      field_simp
    rw [h4]
    linarith
  have hNle : (N : K) ≤ 4294967296 := by
    have : N ≤ 4294967296 := by
      unfold U32 at hN
      omega
    exact_mod_cast this
  have hinv : (1 : K) / 4294967296 ≤ 1 / (N : K) := one_div_le_one_div_of_le hNK hNle
  -- upper bound: the computed value stays below `F + 1`
  have hup : b < (F : K) + 1 := by
    have hT0 : (0 : K) ≤ (F : K) + 1 - 1 / (N : K) := le_trans (by positivity) hgap
    have hT101 : (F : K) + 1 - 1 / (N : K) ≤ 101 := by
      have : (0 : K) ≤ 1 / (N : K) := by positivity
      linarith
    have h1 : a * 100 ≤ ((F : K) + 1 - 1 / (N : K)) * (1 + 1 / 2 ^ 53) := by
      have : a * 100 ≤ q * 100 * (1 + 1 / 2 ^ 53) := by linarith
      refine this.trans ?_
      exact mul_le_mul_of_nonneg_right hgap (by norm_num)
    have h2 : b ≤ ((F : K) + 1 - 1 / (N : K)) * (1 + 1 / 2 ^ 53) * (1 + 1 / 2 ^ 53) := by
      refine hb2.trans ?_
      exact mul_le_mul_of_nonneg_right h1 (by norm_num)
    have h3 : ((F : K) + 1 - 1 / (N : K)) * (1 + 1 / 2 ^ 53) * (1 + 1 / 2 ^ 53) ≤
        ((F : K) + 1 - 1 / (N : K)) + 101 * (3 / 2 ^ 53) := by
      have hw : (1 + 1 / 2 ^ 53 : K) * (1 + 1 / 2 ^ 53) ≤ 1 + 3 / 2 ^ 53 := by norm_num
      calc ((F : K) + 1 - 1 / (N : K)) * (1 + 1 / 2 ^ 53) * (1 + 1 / 2 ^ 53)
          = ((F : K) + 1 - 1 / (N : K)) * ((1 + 1 / 2 ^ 53) * (1 + 1 / 2 ^ 53)) := by ring
        _ ≤ ((F : K) + 1 - 1 / (N : K)) * (1 + 3 / 2 ^ 53) :=
            mul_le_mul_of_nonneg_left hw hT0
        _ = ((F : K) + 1 - 1 / (N : K)) + ((F : K) + 1 - 1 / (N : K)) * (3 / 2 ^ 53) := by
            ring
        _ ≤ ((F : K) + 1 - 1 / (N : K)) + 101 * (3 / 2 ^ 53) := by
            have := mul_le_mul_of_nonneg_right hT101 (by norm_num : (0 : K) ≤ 3 / 2 ^ 53)
            linarith
    have h4 : (101 : K) * (3 / 2 ^ 53) < 1 / 4294967296 := by norm_num
    linarith
  -- lower bound: the computed value stays above `F - 1`
  have hlow : (F : K) - 1 < b := by
    have h1 : q * 100 * (1 - 1 / 2 ^ 53) ≤ a * 100 := by linarith
    have h2 : q * 100 * (1 - 1 / 2 ^ 53) * (1 - 1 / 2 ^ 53) ≤ b := by
      refine le_trans ?_ hb1
      exact mul_le_mul_of_nonneg_right h1 hu
    have h3 : (F : K) * (1 - 1 / 2 ^ 53) * (1 - 1 / 2 ^ 53) ≤
        q * 100 * (1 - 1 / 2 ^ 53) * (1 - 1 / 2 ^ 53) := by
      exact mul_le_mul_of_nonneg_right (mul_le_mul_of_nonneg_right hF1 hu) hu
    have h4 : (F : K) - 100 * (2 / 2 ^ 53) ≤ (F : K) * (1 - 1 / 2 ^ 53) * (1 - 1 / 2 ^ 53) := by
      have hw : (1 : K) - 2 / 2 ^ 53 ≤ (1 - 1 / 2 ^ 53) * (1 - 1 / 2 ^ 53) := by norm_num
      have := mul_le_mul_of_nonneg_left hw hF0K
      have hx : (F : K) * (2 / 2 ^ 53) ≤ 100 * (2 / 2 ^ 53) :=
        mul_le_mul_of_nonneg_right hF100K (by norm_num)
      calc (F : K) - 100 * (2 / 2 ^ 53) ≤ (F : K) - (F : K) * (2 / 2 ^ 53) := by linarith
        _ = (F : K) * (1 - 2 / 2 ^ 53) := by ring
        _ ≤ (F : K) * ((1 - 1 / 2 ^ 53) * (1 - 1 / 2 ^ 53)) := this
        _ = (F : K) * (1 - 1 / 2 ^ 53) * (1 - 1 / 2 ^ 53) := by ring
    have h5 : (100 : K) * (2 / 2 ^ 53) < 1 := by norm_num
    linarith
  have hv1 : ⌊b⌋ ≤ F := by
    have : ⌊b⌋ < F + 1 := Int.floor_lt.mpr (by exact_mod_cast hup)
    omega
  have hv2 : F - 1 ≤ ⌊b⌋ := Int.le_floor.mpr (by push_cast; linarith)
  have hv0 : 0 ≤ ⌊b⌋ := Int.floor_nonneg.mpr hb0
  refine ⟨?_, hv0, by omega⟩
  omega

theorem progressValue_near [LinearOrderedField K] [FloorRing K] [Rounding K]
    (herr : ∀ x : K, 0 ≤ x → |Rounding.fl x - x| ≤ x / 2 ^ 53) (cfg : LoopConfig K) (k : Nat)
    (h32 : cfg.points_num < U32) (h : 10000 * (k + 1) ≤ cfg.points_num) :
    (progressValue cfg k = ⌊((10000 * (k + 1) : Nat) : K) / (cfg.points_num : K) * 100⌋ ∨
      progressValue cfg k =
        ⌊((10000 * (k + 1) : Nat) : K) / (cfg.points_num : K) * 100⌋ - 1) ∧
    0 ≤ progressValue cfg k ∧ progressValue cfg k ≤ 100 :=
  percent_near herr (10000 * (k + 1)) cfg.points_num h (by omega) h32

/-- The loop body on a record that is not too close and not on an accepted channel: only the
tail of the body runs. -/
theorem processPoint_skipped [LinearOrderedField K] [FloorRing K] [Rounding K]
    (slerp : Quat K → K → Quat K → Quat K) (cfg : LoopConfig K) (s : LoopState K)
    (r : LasRecord K) (hc : ¬ tooClose cfg r) (ha : ¬ channelAccepted cfg r) :
    processPoint slerp cfg s r = Flow.next (bump cfg s) := by
  unfold processPoint
  rw [if_neg hc, if_neg ha]

/-- On a stream of `n` such records `index` grows by `n`. -/
theorem runLoop_replicate_index [LinearOrderedField K] [FloorRing K] [Rounding K]
    (slerp : Quat K → K → Quat K → Quat K) (cfg : LoopConfig K) (r : LasRecord K)
    (hc : ¬ tooClose cfg r) (ha : ¬ channelAccepted cfg r) :
    ∀ (n : Nat) (s : LoopState K), s.index + n < U32 →
      (runLoop slerp cfg s (List.replicate n r)).index = s.index + n
  | 0, s, _ => by simp [runLoop]
  | n + 1, s, h => by
    rw [List.replicate_succ, runLoop_cons, processPoint_skipped slerp cfg s r hc ha]
    have hb : (bump cfg s).index = s.index + 1 := by
      rw [(bump_index cfg s).1]
      exact Nat.mod_eq_of_lt (by omega)
    have ih := runLoop_replicate_index slerp cfg r hc ha n (bump cfg s) (by omega)
    simp only [ih, hb]
    omega

/-- C13 (amended): when the header announces as many records as the stream holds (a 32-bit
count), the values passed to `callback` inside the loop are, in order, the values of the `double`
expression `static_cast<double>(index) / points_num * 100` truncated to `int` for
`index = 10000, 20000, ...` up to the final `index`: one call each time `index` becomes a
positive multiple of 10000 and no other call.  Every value lies between 0 and 100, and it is
`floor (index / points_num * 100)` or, by the rounding of the two `double` operations, one
less. -/
theorem progress_reports [LinearOrderedField K] [FloorRing K] [Rounding K]
    (slerp : Quat K → K → Quat K → Quat K) (cfg : LoopConfig K) (que : List (POSSMeas K))
    (rs : List (LasRecord K)) (hN : cfg.points_num = rs.length) (h32 : rs.length < U32)
    (herr : ∀ x : K, 0 ≤ x → |Rounding.fl x - x| ≤ x / 2 ^ 53) :
    (runLoop slerp cfg (LoopState.init que) rs).progress =
      (List.range ((runLoop slerp cfg (LoopState.init que) rs).index / 10000)).map
        (fun k =>
          ⌊Rounding.fl
            (Rounding.fl (((10000 * (k + 1) : Nat) : K) / (cfg.points_num : K)) * 100)⌋) ∧
    (∀ v ∈ (runLoop slerp cfg (LoopState.init que) rs).progress, 0 ≤ v ∧ v ≤ 100) ∧
    ∀ k, k < (runLoop slerp cfg (LoopState.init que) rs).index / 10000 →
      ⌊Rounding.fl
          (Rounding.fl (((10000 * (k + 1) : Nat) : K) / (cfg.points_num : K)) * 100)⌋ =
        ⌊((10000 * (k + 1) : Nat) : K) / (cfg.points_num : K) * 100⌋ ∨
      ⌊Rounding.fl
          (Rounding.fl (((10000 * (k + 1) : Nat) : K) / (cfg.points_num : K)) * 100)⌋ =
        ⌊((10000 * (k + 1) : Nat) : K) / (cfg.points_num : K) * 100⌋ - 1 := by
  have h := runLoop_progress slerp cfg (by omega) rs (LoopState.init que)
    (by simp [LoopState.init, hN]) (by simp [LoopState.init])
  have hidx := h.1
  refine ⟨h.2, ?_, ?_⟩
  · intro v hv
    rw [h.2] at hv
    obtain ⟨k, hk, rfl⟩ := List.mem_map.mp hv
    have hk1 : k < (runLoop slerp cfg (LoopState.init que) rs).index / 10000 :=
      List.mem_range.mp hk
    exact (progressValue_near herr cfg k (by omega) (by omega)).2
  · intro k hk
    exact (progressValue_near herr cfg k (by omega) (by omega)).1

theorem roundDouble_29_percent :
    roundDouble (roundDouble (((10000 * (28 + 1) : Nat) : ℚ) / ((1000000 : Nat) : ℚ)) * 100) =
      8162774324609023 / 281474976710656 := by
  have h0 : (((10000 * (28 + 1) : Nat) : ℚ) / ((1000000 : Nat) : ℚ)) = 29 / 100 := by norm_num
  have h1 : roundDouble (29 / 100) = 5224175567749775 / 18014398509481984 := by
    rw [roundDouble_down (29 / 100) (-2) 5224175567749775 (by norm_num) (by norm_num)
      (by norm_num) (by norm_num)]
    norm_num
  rw [h0, h1, roundDouble_down (5224175567749775 / 18014398509481984 * 100) 4
    8162774324609023 (by norm_num) (by norm_num) (by norm_num) (by norm_num)]
  norm_num

theorem millionStream_length : millionStream.length = 1000000 :=
  List.length_replicate 1000000 otherChannelPoint

/-- The final `index` and the reports on the stream of a million far records of a channel that is
not accepted. -/
theorem million_stream :
    (runLoop blend millionConfig (LoopState.init []) millionStream).index = 1000000 ∧
    (runLoop blend millionConfig (LoopState.init []) millionStream).progress =
      (List.range 100).map (progressValue millionConfig) := by
  have hc : ¬ tooClose millionConfig otherChannelPoint := by
    norm_num [tooClose, otherChannelPoint, millionConfig]
  have ha : ¬ channelAccepted millionConfig otherChannelPoint := by
    norm_num [channelAccepted, otherChannelPoint, millionConfig]
  have h0 : (LoopState.init ([] : List (POSSMeas ℚ))).index = 0 := rfl
  have hidx : (runLoop blend millionConfig (LoopState.init []) millionStream).index =
      1000000 := by
    have h := runLoop_replicate_index blend millionConfig otherChannelPoint hc ha 1000000
      (LoopState.init []) (by rw [h0]; norm_num [U32])
    rw [h0, Nat.zero_add] at h
    exact h
  have hN : millionConfig.points_num = 1000000 := rfl
  have hp := (runLoop_progress blend millionConfig (by rw [hN]; norm_num [U32])
    millionStream (LoopState.init [])
    (by rw [h0, millionStream_length, hN])
    (by rw [h0]; rfl)).2
  rw [hidx] at hp
  exact ⟨hidx, hp⟩

/-- C13 (amended) on a stream of a million records, all far and on a channel that is not
accepted: a hundred reports are made. -/
theorem progress_reports_witness :
    millionConfig.points_num = millionStream.length ∧ millionStream.length < U32 ∧
      (∀ x : ℚ, 0 ≤ x → |Rounding.fl x - x| ≤ x / 2 ^ 53) ∧
      (∀ v ∈ (runLoop blend millionConfig (LoopState.init []) millionStream).progress,
        0 ≤ v ∧ v ≤ 100) ∧
      (runLoop blend millionConfig (LoopState.init []) millionStream).progress.length = 100 :=
  have hN : millionConfig.points_num = millionStream.length := millionStream_length.symm
  have h32 : millionStream.length < U32 := by
    rw [millionStream_length]
    norm_num [U32]
  ⟨hN, h32, roundDouble_error,
    (progress_reports blend millionConfig [] millionStream hN h32 roundDouble_error).2.1,
    by rw [million_stream.2, List.length_map, List.length_range]⟩

/-- C13 (as stated) fails: on a stream of a million records, as many as announced, all far and
on a channel that is not accepted, the value reported when `index` becomes 290000 is 28, while
`floor (290000 / 1000000 * 100)` is 29. -/
theorem progress_report_below_floor :
    millionConfig.points_num = millionStream.length ∧
    (runLoop blend millionConfig (LoopState.init []) millionStream).progress[28]? = some 28 ∧
    ⌊((290000 : Nat) : ℚ) / ((1000000 : Nat) : ℚ) * 100⌋ = 29 := by
  refine ⟨millionStream_length.symm, ?_, ?_⟩
  · rw [million_stream.2]
    have hv : progressValue millionConfig 28 = 28 := by
      simp only [progressValue, millionConfig, fl_rat, roundDouble_29_percent]
      rw [Int.floor_eq_iff]
      norm_num
    simp [hv]
  · rw [Int.floor_eq_iff]
    norm_num

/-- C15 at the queue of three samples (0 ns, 40 ms, 100 ms) and the query 20 ms. -/
theorem poseInterpolation_some_bracket_witness :
    (∀ x ∈ [sample0, sample40, sample100], x.timestamp < U64) ∧
      (poseInterpolation blend 20000000 [sample0, sample40, sample100]).1 =
        some halfWayPose ∧
      ∃ a b rest,
        (poseInterpolation blend 20000000 [sample0, sample40, sample100]).2 = a :: b :: rest ∧
        a.timestamp ≤ 20000000 ∧ 20000000 < b.timestamp :=
  have hr : ∀ x ∈ [sample0, sample40, sample100], x.timestamp < U64 := by decide
  have h : (poseInterpolation blend 20000000 [sample0, sample40, sample100]).1 =
      some halfWayPose := by
    simp [poseInterpolation, advance, interpolate, sample0, sample40, sample100, u64sub, U64,
      blend, halfWayPose, Quat.one]
    norm_num
  ⟨hr, h,
    match poseInterpolation_some_bracket blend [sample0, sample40, sample100] 20000000
      halfWayPose hr h with
    | ⟨a, b, rest, h1, h2, h3, _⟩ => ⟨a, b, rest, h1, h2, h3⟩⟩

end Properties

end PointCloudViewer
